import Mathlib

/-!
# Provider lock resolution and install orchestration (`pkg/project/install.go`)

A shallow embedding of the methods of `Project` defined in `install.go`
(`NeedsInstall`, `Install`, `writePackageJson`, `writeTypes`, `fetchDeps`,
`generateProviderLock`, `writeProviderLock`) together with the properties
proved about them.

Conventions of the embedding

* A Go `interface{}` holding decoded JSON is a `Value`; a Go
  `map[string]interface{}` is an association list (each key at most once)
  with `mapGet` for `m[k]` and `mapSet` for `m[k] = v`.
* A method with receiver `p *Project` is a function from `Project` to an
  `Exit` paired with the project state it leaves behind.  `Exit.ret none` is
  a `nil` error, `Exit.ret (some e)` the error `e`, `Exit.panic` a run-time
  panic and `Exit.hang` a call that blocks forever.
* Collaborators that live outside `install.go` (the registry client `npm.Get`,
  `encoding/json`, the installer subprocess, failing system calls) are the
  fields of `Env`.
* Logging (`slog.Info`) is not modelled.  `Project.calls` is a ghost trace of
  the methods entered, used to state which steps ran.
-/

namespace Ion

/-! ## Data model -/

/-- A decoded JSON value as `encoding/json` stores it in an `interface{}`:
`null` is the nil interface, `num` a `float64` with an integral value (the
methods of `install.go` never inspect a number, they only carry it from the
decoder to the encoder), `arr` a `[]interface{}` and `obj` a
`map[string]interface{}`. -/
inductive Value where
  | null
  | bool (b : Bool)
  | num (n : Int)
  | str (s : String)
  | arr (items : List Value)
  | obj (fields : List (String × Value))

/-- Lookup `m[k]` with presence information (`v, ok := m[k]`). -/
def mapFind? : List (String × Value) → String → Option Value
  | [], _ => none
  | (k', v) :: m, k => if k' = k then some v else mapFind? m k

/-- Go map read `m[k]`: the zero value (nil interface) when the key is absent. -/
def mapGet (m : List (String × Value)) (k : String) : Value :=
  (mapFind? m k).getD Value.null

/-- Go map write `m[k] = v`: overwrite the binding if present, add it otherwise. -/
def mapSet : List (String × Value) → String → Value → List (String × Value)
  | [], k, v => [(k, v)]
  | (k', v') :: m, k, v => if k' = k then (k, v) :: m else (k', v') :: mapSet m k v

/-- Type assertion `v.(map[string]interface{})`; `none` is the run-time panic
of a failed assertion (in particular on the nil interface). -/
def Value.asMap : Value → Option (List (String × Value))
  | Value.obj fields => some fields
  | _ => none

/-- Type assertion `v.(string)`; `none` is the run-time panic. -/
def Value.asString : Value → Option String
  | Value.str s => some s
  | _ => none

/-- Comparison `v == s` of an interface value with a string: true exactly when
the dynamic type is `string` and the contents agree. -/
def Value.eqString : Value → String → Bool
  | Value.str t, s => decide (t = s)
  | _, _ => false

/-- The lines `if version == nil || version == "" { version = "latest" }`. -/
def effectiveVersion (version : Value) : Value :=
  match version with
  | Value.null => Value.str "latest"
  | v => if v.eqString "" then Value.str "latest" else v

/-- Mirror of `type ProviderLockEntry struct`. -/
structure ProviderLockEntry where
  Name : String
  Package : String
  Version : String
  Alias : String
  deriving DecidableEq, Repr

/-- The platform directory: `dir` is its path (`p.PathPlatformDir()`), the
other fields are its files; `none` is a file that does not exist.
`nodeModules` maps a package name to the text of
`node_modules/<package>/provider.js`. -/
structure Disk where
  dir : String
  packageJson : Option String
  configDts : Option String
  providerLock : Option String
  nodeModules : List (String × String)
  deriving DecidableEq, Repr

/-- The fields of `Project` used by `install.go`: `p.app.Providers`, `p.lock`,
the platform directory, and the ghost trace of methods entered. -/
structure Project where
  Providers : List (String × Value)
  lock : List ProviderLockEntry
  disk : Disk
  calls : List String

/-- How a call ends: it returns a value, panics, or never returns. -/
inductive Exit (α : Type) where
  | ret (a : α)
  | panic
  | hang
  deriving DecidableEq, Repr

/-! ## `NeedsInstall` -/

/-- The loop `for _, entry := range p.lock` of `NeedsInstall`. -/
def NeedsInstall.loop (providers : List (String × Value)) :
    List ProviderLockEntry → Exit Bool
  | [] => Exit.ret false
  | entry :: rest =>
    match (mapGet providers entry.Name).asMap with
    | none => Exit.panic
    | some config =>
      let version := effectiveVersion (mapGet config "version")
      if version.eqString entry.Version then NeedsInstall.loop providers rest
      else Exit.ret true

/-- Mirror of `func (p *Project) NeedsInstall() bool`. -/
def NeedsInstall (p : Project) : Exit Bool :=
  if p.Providers.length ≠ p.lock.length then Exit.ret true
  else NeedsInstall.loop p.Providers p.lock

/-! ## Collaborators -/

/-- System calls of `install.go` whose error result the source checks. -/
inductive Sys where
  | openPackageJson
  | readPackageJson
  | truncatePackageJson
  | seekPackageJson
  | writePackageJson
  | openConfigDts
  | writeProviderLock
  deriving DecidableEq, Repr

/-- Everything `install.go` calls but does not define.

* `npmGet name version` is `npm.Get`: `some pkg.Name` when it returns a
  package, `none` when it returns an error (the error value is discarded by
  the caller).
* `Unmarshal` is `json.Unmarshal(data, &result)` for a
  `map[string]interface{}` target, `MarshalIndent` is
  `json.MarshalIndent(result, "", "  ")` and `marshalLock` the same call on
  `p.lock`.
* `bunInstall` is the subprocess `<manager> install` run in the platform
  directory: the contents of `node_modules` it leaves, and its combined
  output when `cmd.CombinedOutput()` returns an error.
* `fault` tells which checked system calls fail, and with which error. -/
structure Env where
  npmGet : String → String → Option String
  Unmarshal : String → Except String (List (String × Value))
  MarshalIndent : List (String × Value) → Except String String
  marshalLock : List ProviderLockEntry → Except String String
  bunInstall : Disk → List (String × String) × Option String
  fault : Sys → Option String

/-- Ghost bookkeeping: record that method `name` was entered. -/
def Project.enter (p : Project) (name : String) : Project :=
  { p with calls := p.calls ++ [name] }

/-! ## `generateProviderLock` -/

/-- Namespaces tried by a resolution task, in source order. -/
def scopes : List String := ["@sst-provider/", "@pulumi/", ""]

/-- How the function passed to `wg.Go` for one provider ends: it reaches the
send `results <- ProviderLockEntry{...}`, it returns the "not found" error, or
the assertion `version.(string)` panics. -/
inductive TaskResult where
  | send (entry : ProviderLockEntry)
  | fail (err : String)
  | panic
  deriving DecidableEq, Repr

/-- The loop `for _, prefix := range []string{...}` of a resolution task,
paired with the registry queries `(name, version)` it made, in order. -/
def resolveLoop (npmGet : String → String → Option String) (n : String) (version : Value) :
    List String → List (String × String) × TaskResult
  | [] => ([], TaskResult.fail ("provider " ++ n ++ " not found"))
  | pfx :: rest =>
    match version.asString with
    | none => ([], TaskResult.panic)
    | some v =>
      match npmGet (pfx ++ n) v with
      | none =>
        let r := resolveLoop npmGet n version rest
        ((pfx ++ n, v) :: r.1, r.2)
      | some pkg => ([(pfx ++ n, v)], TaskResult.send ⟨n, pkg, v, ""⟩)

/-- Body of the closure given to `wg.Go` for provider `n`. -/
def resolveTask (npmGet : String → String → Option String) (n : String) (version : Value) :
    List (String × String) × TaskResult :=
  resolveLoop npmGet n version scopes

/-- The spawn loop `for name, config := range p.app.Providers`: the captured
`(n, version)` of every task, or `none` when `config.(map[string]interface{})`
panics. -/
def spawn : List (String × Value) → Option (List (String × Value))
  | [] => some []
  | (name, config) :: rest =>
    match config.asMap with
    | none => none
    | some fields =>
      match spawn rest with
      | none => none
      | some tasks => some ((name, effectiveVersion (mapGet fields "version")) :: tasks)

/-- State of the goroutines of one `generateProviderLock` call after the spawn
loop.

* `ready`: resolution tasks that have not run yet, with their captured
  `(n, version)`;
* `sending`: resolution tasks blocked in the send on the unbuffered channel
  `results`, with the entry they are sending;
* `pending`: iterations left of the collector's `for range p.app.Providers`;
* `out`: the collector's slice `out`;
* `collected`: the collector has closed `results` and returned;
* `err`: the first non-nil error recorded by the `errgroup.Group`;
* `crashed`: a goroutine panicked, which ends the process;
* `waited`: `wg.Wait()` has returned. -/
structure Group where
  ready : List (String × Value)
  sending : List ProviderLockEntry
  pending : Nat
  out : List ProviderLockEntry
  collected : Bool
  err : Option String
  crashed : Bool
  waited : Bool

/-- State right after the spawn loop and the start of the collector. -/
def Group.init (tasks : List (String × Value)) : Group :=
  { ready := tasks, sending := [], pending := tasks.length, out := [],
    collected := false, err := none, crashed := false, waited := false }

/-- Every way of taking one element out of a list. -/
def picks {α : Type} : List α → List (α × List α)
  | [] => []
  | x :: xs => (x, xs) :: (picks xs).map (fun r => (r.1, x :: r.2))

/-- A ready resolution task runs up to its send, its error return or its
panic.  `errgroup` keeps the first error only. -/
def Group.runTask (env : Env) (g : Group) (r : (String × Value) × List (String × Value)) : Group :=
  match (resolveTask env.npmGet r.1.1 r.1.2).2 with
  | TaskResult.send entry => { g with ready := r.2, sending := g.sending ++ [entry] }
  | TaskResult.fail e =>
    { g with ready := r.2, err := match g.err with | some e0 => some e0 | none => some e }
  | TaskResult.panic => { g with ready := r.2, crashed := true }

/-- A blocked sender hands its entry to the collector, which executes
`r := <-results; out = append(out, &r)`; the sender then returns nil. -/
def Group.receive (g : Group) (r : ProviderLockEntry × List ProviderLockEntry) : Group :=
  { g with sending := r.2, pending := g.pending - 1, out := g.out ++ [r.1] }

/-- All states reachable in one scheduling step.  A crashed process has none;
a receive needs the collector to be inside its loop; the collector returns
once its loop is over; `wg.Wait()` returns once every function given to
`wg.Go` has returned. -/
def moves (env : Env) (g : Group) : List Group :=
  if g.crashed then []
  else
    (picks g.ready).map (g.runTask env)
    ++ (if 0 < g.pending then (picks g.sending).map g.receive else [])
    ++ (if g.pending = 0 ∧ g.collected = false then [{ g with collected := true }] else [])
    ++ (if g.ready.isEmpty = true ∧ g.sending.isEmpty = true ∧ g.collected = true
          ∧ g.waited = false
        then [{ g with waited := true }] else [])

/-- Scheduler choice among the enabled moves. -/
def choose {α : Type} (i : Nat) (l : List α) : Option α :=
  l.get? (i % l.length)

/-- Run the goroutines for at most `fuel` scheduling steps; `sched` decides
which enabled move is taken at each step. -/
def run (env : Env) (sched : Nat → Nat) : Nat → Group → Group
  | 0, g => g
  | fuel + 1, g =>
    match choose (sched fuel) (moves env g) with
    | none => g
    | some g' => run env sched fuel g'

/-- Mirror of `func (p *Project) generateProviderLock() error`.  A run has at
most `2 * n + 2` scheduling steps for `n` providers (`run_terminal`), so after
that many the goroutines have nothing left to do: a state in which
`wg.Wait()` has not returned is a deadlock. -/
def generateProviderLock (env : Env) (sched : Nat → Nat) (p : Project) :
    Exit (Option String) × Project :=
  let p := p.enter "generateProviderLock"
  match spawn p.Providers with
  | none => (Exit.panic, p)
  | some tasks =>
    let g := run env sched (2 * tasks.length + 2) (Group.init tasks)
    if g.crashed then (Exit.panic, p)
    else if g.waited then
      match g.err with
      | some e => (Exit.ret (some e), p)
      | none => (Exit.ret none, { p with lock := g.out })
    else (Exit.hang, p)

/-! ## `writePackageJson` -/

/-- The loop `for _, entry := range p.lock` of `writePackageJson`, writing
`dependencies[entry.Package] = entry.Version`. -/
def writePackageJson.loop (dependencies : List (String × Value)) :
    List ProviderLockEntry → List (String × Value)
  | [] => dependencies
  | entry :: rest =>
    writePackageJson.loop (mapSet dependencies entry.Package (Value.str entry.Version)) rest

/-- The update of the decoded manifest between `json.Unmarshal` and
`json.MarshalIndent`: `none` is the panic of
`result["dependencies"].(map[string]interface{})`.  The Go map `dependencies`
is the one stored in `result`, so the writes of the loop are seen through
`result`. -/
def writePackageJson.update (lock : List ProviderLockEntry) (result : List (String × Value)) :
    Option (List (String × Value)) :=
  match (mapGet result "dependencies").asMap with
  | none => none
  | some dependencies =>
    some (mapSet result "dependencies" (Value.obj (writePackageJson.loop dependencies lock)))

/-- Mirror of `func (p *Project) writePackageJson() error`.  `os.O_CREATE`
makes a missing file an empty one. -/
def writePackageJson (env : Env) (p : Project) : Exit (Option String) × Project :=
  let p := p.enter "writePackageJson"
  match env.fault Sys.openPackageJson with
  | some e => (Exit.ret (some e), p)
  | none =>
    let data := p.disk.packageJson.getD ""
    let p := { p with disk := { p.disk with packageJson := some data } }
    match env.fault Sys.readPackageJson with
    | some e => (Exit.ret (some e), p)
    | none =>
      match env.Unmarshal data with
      | Except.error e => (Exit.ret (some e), p)
      | Except.ok result =>
        match writePackageJson.update p.lock result with
        | none => (Exit.panic, p)
        | some result =>
          match env.MarshalIndent result with
          | Except.error e => (Exit.ret (some e), p)
          | Except.ok dataToWrite =>
            match env.fault Sys.truncatePackageJson with
            | some e => (Exit.ret (some e), p)
            | none =>
              let p := { p with disk := { p.disk with packageJson := some "" } }
              match env.fault Sys.seekPackageJson with
              | some e => (Exit.ret (some e), p)
              | none =>
                match env.fault Sys.writePackageJson with
                | some e => (Exit.ret (some e), p)
                | none =>
                  (Exit.ret none,
                    { p with disk := { p.disk with packageJson := some dataToWrite } })

/-! ## `writeTypes` -/

/-- Mirror of `func (p *Project) writeTypes() error`.  The file is opened with
`os.O_TRUNC`; every `file.WriteString(s)` appends `s` (the source discards the
results of these calls). -/
def writeTypes (env : Env) (p : Project) : Exit (Option String) × Project :=
  let p := p.enter "writeTypes"
  match env.fault Sys.openConfigDts with
  | some e => (Exit.ret (some e), p)
  | none =>
    let file := ""
    let file := file ++ ("import \"./src/global.d.ts\"" ++ "\n")
    let file := file ++ ("import \"../types.generated\"" ++ "\n")
    let file := file ++ ("import \x7b AppInput, App, Config \x7d from \"./src/config\"" ++ "\n")
    let file := p.lock.foldl (fun file entry =>
      file ++ ("import * as _" ++ entry.Alias ++ " from \"" ++ entry.Package ++ "\";" ++ "\n")) file
    let file := file ++ "\n\n"
    let file := file ++ ("declare global \x7b" ++ "\n")
    let file := p.lock.foldl (fun file entry =>
      (file ++ ("  // @ts-expect-error" ++ "\n"))
        ++ ("  export import " ++ entry.Alias ++ " = _" ++ entry.Alias ++ "\n")) file
    let file := file ++ ("  interface Providers \x7b" ++ "\n")
    let file := file ++ ("    providers?: \x7b" ++ "\n")
    let file := p.lock.foldl (fun file entry =>
      file ++ ("      \"" ++ entry.Name ++ "\"?:  (_" ++ entry.Alias
        ++ ".ProviderArgs & \x7b version?: string \x7d) | boolean;" ++ "\n")) file
    let file := file ++ ("    \x7d" ++ "\n")
    let file := file ++ ("  \x7d" ++ "\n")
    let file := file ++ ("  export const $config: (" ++ "\n")
    let file := file ++ ("    input: Omit<Config, \"app\"> & \x7b" ++ "\n")
    let file := file ++ ("      app(input: AppInput): Omit<App, \"providers\"> & Providers;" ++ "\n")
    let file := file ++ ("    \x7d," ++ "\n")
    let file := file ++ ("  ) => Config;" ++ "\n")
    let file := file ++ ("\x7d" ++ "\n")
    (Exit.ret none, { p with disk := { p.disk with configDts := some file } })

/-! ## `fetchDeps` -/

/-- Line feed. -/
def charLF : Char := Char.ofNat 10

/-- Carriage return. -/
def charCR : Char := Char.ofNat 13

/-- The hyphen replaced by `strings.ReplaceAll(matches[1], "-", "")`. -/
def charHyphen : Char := Char.ofNat 45

/-- The class `['"]` of the pattern: apostrophe (39) or double quote (34). -/
def isQuote (c : Char) : Bool := c = Char.ofNat 39 || c = Char.ofNat 34

/-- Constant `bufio.MaxScanTokenSize`. -/
def maxScanTokenSize : Nat := 64 * 1024

/-- Length of a line in bytes (UTF-8). -/
def byteLen (line : List Char) : Nat := (line.map Char.utf8Size).sum

/-- Helper `dropCR` of `bufio.ScanLines`: drop one trailing carriage return. -/
def dropCR (line : List Char) : List Char :=
  if line.getLast? = some charCR then line.dropLast else line

/-- The lines `bufio.ScanLines` cuts a text into, before `dropCR`: split at
every line feed; a non-empty remainder after the last line feed is a line.
`acc` holds the current line, reversed. -/
def rawLines : List Char → List Char → List (List Char)
  | [], acc => if acc.isEmpty then [] else [acc.reverse]
  | c :: cs, acc =>
    if c = charLF then acc.reverse :: rawLines cs [] else rawLines cs (c :: acc)

/-- What a `bufio.Scanner` with the default buffer delivers for the given raw
lines: the tokens for which `Scan()` returns true, and the value of `Err()`
once `Scan()` has returned false.  A line of `maxScanTokenSize` bytes or more
does not fit the buffer and ends the scan with `bufio.ErrTooLong`. -/
def scanTokens : List (List Char) → List String × Option String
  | [] => ([], none)
  | line :: rest =>
    if maxScanTokenSize ≤ byteLen line then ([], some "bufio.Scanner: token too long")
    else
      let r := scanTokens rest
      (String.mk (dropCR line) :: r.1, r.2)

/-- Translation of `bufio.NewScanner(file)` for a file holding `text`. -/
def newScanner (text : String) : List String × Option String :=
  scanTokens (rawLines text.data [])

/-- The literal part `Provider\.__pulumiType = ` of the pattern. -/
def marker : List Char := "Provider.__pulumiType = ".data

/-- Match the literal `lit` at the start of `s`; the rest of `s` on success. -/
def stripLiteral : List Char → List Char → Option (List Char)
  | [], s => some s
  | _ :: _, [] => none
  | m :: ms, c :: cs => if m = c then stripLiteral ms cs else none

/-- Match the pattern anchored at the start of `s` and give capture group
1.  The group `[^'"]+` is followed by a quote, so it is the whole non-empty
run of non-quote characters after the opening quote. -/
def matchHere (s : List Char) : Option (List Char) :=
  match stripLiteral marker s with
  | none => none
  | some [] => none
  | some (q :: body) =>
    if isQuote q then
      let ident := body.takeWhile (fun c => !isQuote c)
      match body.dropWhile (fun c => !isQuote c) with
      | [] => none
      | _ :: _ => if ident.isEmpty then none else some ident
    else none

/-- Leftmost match of the pattern in `s`: capture group 1 of
`pulumiTypePattern.FindStringSubmatch`, `none` when `len(matches) > 1` is
false. -/
def findSubmatch : List Char → Option (List Char)
  | [] => none
  | c :: cs =>
    match matchHere (c :: cs) with
    | some ident => some ident
    | none => findSubmatch cs

/-- Translation of `strings.ReplaceAll(s, "-", "")`. -/
def removeHyphens (s : List Char) : String :=
  String.mk (s.filter (fun c => !(c = charHyphen)))

/-- The loop `for scanner.Scan()`: `some alias` when it leaves through `break`
with `entry.Alias` set to `alias`, `none` when the tokens run out. -/
def fetchDeps.scan : List String → Option String
  | [] => none
  | line :: rest =>
    match findSubmatch line.data with
    | some ident => some (removeHyphens ident)
    | none => fetchDeps.scan rest

/-- Path opened for a lock entry,
`filepath.Join(p.PathPlatformDir(), "node_modules", entry.Package, "provider.js")`,
for a directory path and a package name that `filepath.Clean` leaves as they
are. -/
def artifactPath (dir pkg : String) : String :=
  dir ++ "/node_modules/" ++ pkg ++ "/provider.js"

/-- Contents of `node_modules/<pkg>/provider.js`, if the file exists. -/
def Disk.artifact (d : Disk) (pkg : String) : Option String :=
  match d.nodeModules.find? (fun f => decide (f.1 = pkg)) with
  | some f => some f.2
  | none => none

/-- Body of the loop `for _, entry := range p.lock` of `fetchDeps` for one
entry: the error returned from inside the body, if any, and the entry as the
body leaves it (the entry is updated through its pointer).  A file missing
from `node_modules` is the failure of `os.Open`.  When the scan loop is left
through `break`, `scanner.Err()` is nil: the scanner records an error only
when `Scan()` returns false. -/
def fetchDeps.visit (d : Disk) (entry : ProviderLockEntry) : Option String × ProviderLockEntry :=
  match d.artifact entry.Package with
  | none =>
    (some ("open " ++ artifactPath d.dir entry.Package ++ ": no such file or directory"),
      entry)
  | some text =>
    let scanner := newScanner text
    match fetchDeps.scan scanner.1 with
    | some a =>
      let entry := { entry with Alias := a }
      if entry.Alias = "" then
        (some ("failed to find __pulumiType for " ++ entry.Package), entry)
      else (none, entry)
    | none =>
      match scanner.2 with
      | some e => (some e, entry)
      | none =>
        if entry.Alias = "" then
          (some ("failed to find __pulumiType for " ++ entry.Package), entry)
        else (none, entry)

/-- The loop `for _, entry := range p.lock` of `fetchDeps`: the error it
returns with, if any, and the lock as it leaves it. -/
def fetchDeps.loop (d : Disk) : List ProviderLockEntry → Option String × List ProviderLockEntry
  | [] => (none, [])
  | entry :: rest =>
    match fetchDeps.visit d entry with
    | (some e, entry') => (some e, entry' :: rest)
    | (none, entry') =>
      let r := fetchDeps.loop d rest
      (r.1, entry' :: r.2)

/-- Mirror of `func (p *Project) fetchDeps() error`. -/
def fetchDeps (env : Env) (p : Project) : Exit (Option String) × Project :=
  let p := p.enter "fetchDeps"
  let r := env.bunInstall p.disk
  let p := { p with disk := { p.disk with nodeModules := r.1 } }
  match r.2 with
  | some output => (Exit.ret (some ("failed to run bun install " ++ output)), p)
  | none =>
    let r := fetchDeps.loop p.disk p.lock
    (Exit.ret r.1, { p with lock := r.2 })

/-! ## `writeProviderLock` and `Install` -/

/-- Mirror of `func (p *Project) writeProviderLock() error`. -/
def writeProviderLock (env : Env) (p : Project) : Exit (Option String) × Project :=
  let p := p.enter "writeProviderLock"
  match env.marshalLock p.lock with
  | Except.error e => (Exit.ret (some e), p)
  | Except.ok data =>
    match env.fault Sys.writeProviderLock with
    | some e => (Exit.ret (some e), p)
    | none => (Exit.ret none, { p with disk := { p.disk with providerLock := some data } })

/-- Mirror of `func (p *Project) Install() error`: each step runs only when
the previous one returned nil; an error is returned as it is, a panic or a
blocked call ends the run there. -/
def Install (env : Env) (sched : Nat → Nat) (p : Project) : Exit (Option String) × Project :=
  let p := p.enter "Install"
  match generateProviderLock env sched p with
  | (Exit.ret none, p) =>
    match writePackageJson env p with
    | (Exit.ret none, p) =>
      match fetchDeps env p with
      | (Exit.ret none, p) =>
        match writeTypes env p with
        | (Exit.ret none, p) => writeProviderLock env p
        | r => r
      | r => r
    | r => r
  | r => r

/-! ## Definitions used to state the properties -/

/-- The entry a ready task will send, if it reaches its send. -/
def sends (env : Env) (t : String × Value) : Option ProviderLockEntry :=
  match (resolveTask env.npmGet t.1 t.2).2 with
  | TaskResult.send entry => some entry
  | _ => none

/-- Number of scheduling steps a group of goroutines can still take, at most. -/
def Group.budget (g : Group) : Nat :=
  2 * g.ready.length + g.sending.length + (if g.collected then 0 else 1)
    + (if g.waited then 0 else 1)

/-- Registry Resolver of the specification (section 4.1): the package of the
first namespace, in the order first-party, community, bare name, in which the
registry has the name at the version. -/
def specResolve (npmGet : String → String → Option String) (n v : String) : Option String :=
  match npmGet ("@sst-provider/" ++ n) v with
  | some pkg => some pkg
  | none =>
    match npmGet ("@pulumi/" ++ n) v with
    | some pkg => some pkg
    | none => npmGet n v

/-- The `versionSelector` of a declared provider (section 3): the string under
the key `version` of its configuration, when there is one. -/
def versionSelector (config : Value) : Option String :=
  match config with
  | Value.obj fields => (mapGet fields "version").asString
  | _ => none

/-- Normalization of the specification: an absent or empty selector is the
sentinel `latest`. -/
def specVersion (selector : Option String) : String :=
  match selector with
  | none => "latest"
  | some s => if s = "" then "latest" else s

/-- The lock entry the specification expects for a declared provider: its
name, the resolver's package, the normalized version and an empty alias. -/
def expectedEntry (npmGet : String → String → Option String) (d : String × Value) :
    ProviderLockEntry :=
  { Name := d.1,
    Package := (specResolve npmGet d.1 (specVersion (versionSelector d.2))).getD "",
    Version := specVersion (versionSelector d.2),
    Alias := "" }

/-- One expected entry per declared provider, in declaration order. -/
def expectedLock (npmGet : String → String → Option String) (providers : List (String × Value)) :
    List ProviderLockEntry :=
  providers.map (expectedEntry npmGet)

/-- A declared provider resolves: its configuration is an object whose
`version` is absent (or null) or a string, and the registry has the name at
the normalized version in one of the namespaces. -/
def resolves (npmGet : String → String → Option String) (d : String × Value) : Bool :=
  match d.2 with
  | Value.obj fields =>
    (match mapGet fields "version" with
      | Value.null => true
      | Value.str _ => true
      | _ => false)
    && (specResolve npmGet d.1 (specVersion (versionSelector d.2))).isSome
  | _ => false

/-- A declared provider is not in the registry: its configuration is an
object with a string (or absent) `version`, and no namespace has the name at
the normalized version. -/
def unresolvable (npmGet : String → String → Option String) (d : String × Value) : Bool :=
  match d.2 with
  | Value.obj fields =>
    (match mapGet fields "version" with
      | Value.null => true
      | Value.str _ => true
      | _ => false)
    && (specResolve npmGet d.1 (specVersion (versionSelector d.2))).isNone
  | _ => false

/-- The `(n, version)` captured by the task spawned for a declared provider. -/
def taskOf (d : String × Value) : String × Value :=
  (d.1, effectiveVersion (mapGet (d.2.asMap.getD []) "version"))

/-- Bookkeeping that holds in every state of every run: the collector still
expects at least as many entries as there are unfinished tasks, strictly more
once a task has returned an error, and it returns only when it expects none;
`wg.Wait()` returns only after the collector. -/
def Group.Sound (g : Group) : Prop :=
  g.ready.length + g.sending.length ≤ g.pending ∧
  (g.err ≠ none → g.ready.length + g.sending.length < g.pending) ∧
  (g.collected = true → g.pending = 0) ∧
  (g.waited = true → g.collected = true)

/-- State of a run in which some task never sends: the collector is still in
its loop and expects more entries than the tasks can still send. -/
def Group.Starved (env : Env) (g : Group) : Prop :=
  g.collected = false ∧ g.waited = false ∧
  (g.ready.filterMap (sends env)).length + g.sending.length < g.pending

/-- State of a run in which no task panics. -/
def Group.Calm (env : Env) (g : Group) : Prop :=
  g.crashed = false ∧
  ∀ t ∈ g.ready, (resolveTask env.npmGet t.1 t.2).2 ≠ TaskResult.panic

/-- State of a run in which every task sends: no error, no crash, every entry
of `expected` is still to be sent, being sent or collected, and the collector
expects exactly the entries not yet collected. -/
def Group.Healthy (env : Env) (expected : List ProviderLockEntry) (g : Group) : Prop :=
  g.crashed = false ∧ g.err = none ∧
  (∀ t ∈ g.ready, (sends env t).isSome = true) ∧
  (g.ready.filterMap (sends env) ++ g.sending ++ g.out).Perm expected ∧
  g.pending = g.ready.length + g.sending.length

/-! ## The stages of `Install` -/

/-- Result of the first step of `Install`. -/
def Install.afterLock (env : Env) (sched : Nat → Nat) (p : Project) :
    Exit (Option String) × Project :=
  generateProviderLock env sched (p.enter "Install")

/-- Result of `writePackageJson` in the state the first step leaves. -/
def Install.afterManifest (env : Env) (sched : Nat → Nat) (p : Project) :
    Exit (Option String) × Project :=
  writePackageJson env (Install.afterLock env sched p).2

/-- Result of `fetchDeps` in the state `writePackageJson` leaves. -/
def Install.afterFetch (env : Env) (sched : Nat → Nat) (p : Project) :
    Exit (Option String) × Project :=
  fetchDeps env (Install.afterManifest env sched p).2

/-- Result of `writeTypes` in the state `fetchDeps` leaves. -/
def Install.afterTypes (env : Env) (sched : Nat → Nat) (p : Project) :
    Exit (Option String) × Project :=
  writeTypes env (Install.afterFetch env sched p).2

/-! ## The type-stub file of the specification -/

/-- Concatenation of lines. -/
def concatLines : List String → String
  | [] => ""
  | line :: rest => line ++ concatLines rest

/-- The three fixed leading import lines. -/
def stubHeader : String :=
  "import \"./src/global.d.ts\"" ++ "\n" ++ ("import \"../types.generated\"" ++ "\n")
    ++ ("import \x7b AppInput, App, Config \x7d from \"./src/config\"" ++ "\n")

/-- The re-export import line of a lock entry. -/
def stubImport (entry : ProviderLockEntry) : String :=
  "import * as _" ++ entry.Alias ++ " from \"" ++ entry.Package ++ "\";" ++ "\n"

/-- The re-export of a lock entry's alias inside `declare global`. -/
def stubExport (entry : ProviderLockEntry) : String :=
  "  // @ts-expect-error" ++ "\n"
    ++ ("  export import " ++ entry.Alias ++ " = _" ++ entry.Alias ++ "\n")

/-- The optional key of a lock entry inside `providers?:`, typed as the
provider's argument shape or boolean. -/
def stubKey (entry : ProviderLockEntry) : String :=
  "      \"" ++ entry.Name ++ "\"?:  (_" ++ entry.Alias
    ++ ".ProviderArgs & \x7b version?: string \x7d) | boolean;" ++ "\n"

/-- The fixed end of the file: the end of the `Providers` interface and the
`$config` declaration. -/
def stubFooter : String :=
  "    \x7d" ++ "\n" ++ ("  \x7d" ++ "\n") ++ ("  export const $config: (" ++ "\n")
    ++ ("    input: Omit<Config, \"app\"> & \x7b" ++ "\n")
    ++ ("      app(input: AppInput): Omit<App, \"providers\"> & Providers;" ++ "\n")
    ++ ("    \x7d," ++ "\n") ++ ("  ) => Config;" ++ "\n") ++ ("\x7d" ++ "\n")

/-- The type-stub file of the specification for a lock: header, one import per
entry, the `declare global` block with one re-export per entry and one key per
entry in the `Providers` interface, each group in lock order, then the fixed
end. -/
def stubText (lock : List ProviderLockEntry) : String :=
  stubHeader ++ concatLines (lock.map stubImport) ++ "\n\n" ++ ("declare global \x7b" ++ "\n")
    ++ concatLines (lock.map stubExport)
    ++ ("  interface Providers \x7b" ++ "\n") ++ ("    providers?: \x7b" ++ "\n")
    ++ concatLines (lock.map stubKey) ++ stubFooter

/-! ## Concrete inputs used by the closed statements below -/

/-- An empty platform directory. -/
def emptyDisk : Disk :=
  { dir := "/app/.sst/platform", packageJson := none, configDts := none,
    providerLock := none, nodeModules := [] }

/-- The declaration now names `gcp` while the lock on disk was made for `aws`. -/
def renamedProject : Project :=
  { Providers := [("gcp", Value.obj [])],
    lock := [⟨"aws", "@pulumi/aws", "latest", "aws"⟩],
    disk := emptyDisk, calls := [] }

/-- A registry that has `aws` in both scoped namespaces, under different
package names, and nothing else. -/
def bothScopes (name : String) (_version : String) : Option String :=
  if name = "@sst-provider/aws" then some "@sst-provider/aws"
  else if name = "@pulumi/aws" then some "@pulumi/aws"
  else none

/-- A registry that has `aws` and `gcp` in the community namespace only. -/
def communityOnly (name : String) (_version : String) : Option String :=
  if name = "@pulumi/aws" then some "@pulumi/aws"
  else if name = "@pulumi/gcp" then some "@pulumi/gcp"
  else none

/-- An environment over `communityOnly` in which no system call fails; the
manifest decodes to an object with empty `dependencies`. -/
def communityEnv : Env :=
  { npmGet := communityOnly,
    Unmarshal := fun _ => Except.ok [("dependencies", Value.obj [])],
    MarshalIndent := fun _ => Except.ok "manifest",
    marshalLock := fun _ => Except.ok "lock",
    bunInstall := fun d => (d.nodeModules, none),
    fault := fun _ => none }

/-- Three declared providers; the second one, `nope`, is in no namespace of
`communityOnly`.  The lock file on disk is the one of an earlier install. -/
def threeProviders : Project :=
  { Providers := [("aws", Value.obj []), ("nope", Value.obj []),
      ("gcp", Value.obj [("version", Value.str "7.0.0")])],
    lock := [],
    disk := { emptyDisk with providerLock := some "old lock" },
    calls := [] }

/-- Two declared providers that `communityOnly` resolves. -/
def twoProviders : Project :=
  { Providers := [("aws", Value.obj []), ("gcp", Value.obj [("version", Value.str "7.0.0")])],
    lock := [],
    disk := emptyDisk,
    calls := [] }

/-- A lock in which two providers resolved to the same package at different
versions (the names `aws` and `@pulumi/aws` both resolve to `@pulumi/aws`). -/
def sharedPackage : Project :=
  { Providers := [("aws", Value.obj [("version", Value.str "6.0.0")]),
      ("@pulumi/aws", Value.obj [("version", Value.str "5.0.0")])],
    lock := [⟨"aws", "@pulumi/aws", "6.0.0", ""⟩, ⟨"@pulumi/aws", "@pulumi/aws", "5.0.0", ""⟩],
    disk := { emptyDisk with packageJson := some "manifest" },
    calls := [] }

/-- An environment whose decoder reads the text `{}` as the empty object
(braces written by code point) and a manifest text as an object with a name
and one dependency. -/
def manifestEnv : Env :=
  { npmGet := communityOnly,
    Unmarshal := fun data =>
      if data = "\x7b\x7d" then Except.ok []
      else if data = "manifest" then
        Except.ok [("name", Value.str "app"),
          ("dependencies", Value.obj [("left-pad", Value.str "1.3.0")])]
      else Except.error "invalid character",
    MarshalIndent := fun _ => Except.ok "manifest",
    marshalLock := fun _ => Except.ok "lock",
    bunInstall := fun d => (d.nodeModules, none),
    fault := fun _ => none }

/-- A project whose `package.json` holds the empty object `{}`. -/
def emptyManifest : Project :=
  { Providers := [("aws", Value.obj [])],
    lock := [⟨"aws", "@pulumi/aws", "latest", ""⟩],
    disk := { emptyDisk with packageJson := some "\x7b\x7d" },
    calls := [] }

/-- A project with a manifest that has a name and one dependency, and a lock
of one entry. -/
def smallProject : Project :=
  { Providers := [("aws", Value.obj [])],
    lock := [⟨"aws", "@pulumi/aws", "latest", ""⟩],
    disk := { emptyDisk with packageJson := some "manifest" },
    calls := [] }

/-- A platform directory in which the artifact of `@pulumi/aws` holds the line
`Provider.__pulumiType = "my-cool-thing";` followed by a second assignment. -/
def coolDisk : Disk :=
  { emptyDisk with
    nodeModules := [("@pulumi/aws",
      "exports.Provider = Provider;\nProvider.__pulumiType = \"my-cool-thing\";\nProvider.__pulumiType = 'other';\n")] }

/-- A platform directory in which the artifact of `@pulumi/aws` assigns a type
identifier made of hyphens only. -/
def hyphenDisk : Disk :=
  { emptyDisk with
    nodeModules := [("@pulumi/aws", "Provider.__pulumiType = \"--\";\n")] }

/-- A project over `hyphenDisk` with the lock `generateProviderLock` makes for
the declaration of `aws`. -/
def hyphenProject : Project :=
  { Providers := [("aws", Value.obj [])],
    lock := [⟨"aws", "@pulumi/aws", "latest", ""⟩],
    disk := hyphenDisk,
    calls := [] }

/-- A project with no declared provider and a manifest that does not decode;
the lock file on disk is the one of an earlier install. -/
def brokenManifest : Project :=
  { Providers := [],
    lock := [],
    disk := { emptyDisk with packageJson := some "not json", providerLock := some "old lock" },
    calls := [] }

/-! ## Numbers in `encoding/json` -/

/-- Loop of `bitLength`, with fuel. -/
def bitLength.go : Nat → Nat → Nat
  | 0, _ => 0
  | fuel + 1, n => if n = 0 then 0 else bitLength.go fuel (n / 2) + 1

/-- Number of binary digits of a natural number (`bits.Len`). -/
def bitLength (n : Nat) : Nat := bitLength.go n n

/-- The float64 nearest to a natural number, ties to the even mantissa, as
`strconv.ParseFloat` computes it for an integer literal; `none` when the
literal is out of the range of float64. -/
def parseFloat64 (n : Nat) : Option Nat :=
  if n < 2 ^ 53 then some n
  else
    let e := bitLength n - 53
    let q := n / 2 ^ e
    let r := n % 2 ^ e
    let half := 2 ^ (e - 1)
    let m := if half < r ∨ (r = half ∧ q % 2 = 1) then q + 1 else q
    if 1024 < bitLength (m * 2 ^ e) then none else some (m * 2 ^ e)

/-- Search of `formatFloat64`: try to replace the last `j` digits of `f` by
zeros, rounding down or up, for `j` from the given bound downwards, and take
the first decimal that parses back to `f` (the nearer one when both do, the
even one on a tie). -/
def formatFloat64.search (f : Nat) : Nat → Nat
  | 0 => f
  | j + 1 =>
    let down := f / 10 ^ (j + 1) * 10 ^ (j + 1)
    let up := down + 10 ^ (j + 1)
    let okDown := decide (parseFloat64 down = some f)
    let okUp := decide (parseFloat64 up = some f)
    if okDown && okUp then
      if f - down < up - f then down
      else if up - f < f - down then up
      else if (f / 10 ^ (j + 1)) % 2 = 0 then down else up
    else if okDown then down
    else if okUp then up
    else formatFloat64.search f j

/-- The number `encoding/json` writes for an integral float64 `f`: the decimal
with the fewest significant digits that parses back to `f`
(`strconv.FormatFloat` with precision -1).  The search starts at the number
of digits of `f`. -/
def formatFloat64 (f : Nat) : Nat := formatFloat64.search f (Nat.toDigits 10 f).length

/-- A project whose manifest has the top-level key `big` holding an integer
that float64 cannot represent. -/
def numberProject : Project :=
  { Providers := [("aws", Value.obj [])],
    lock := [⟨"aws", "@pulumi/aws", "latest", ""⟩],
    disk := { emptyDisk with
      packageJson := some
        "\x7b\n  \"big\": 12345678901234567890,\n  \"dependencies\": \x7b\x7d\n\x7d" },
    calls := [] }

/-- An environment for `numberProject`.  Its decoder reads the manifest text of
`numberProject` as `encoding/json` does into a `map[string]interface{}`: the
number becomes the float64 that `parseFloat64` gives.  Its encoder writes a
manifest of the shape `big` (a natural number), `dependencies` (one string entry) with
two-space indentation, the number as `formatFloat64` gives it. -/
def numberEnv : Env :=
  { npmGet := communityOnly,
    Unmarshal := fun data =>
      if data = "\x7b\n  \"big\": 12345678901234567890,\n  \"dependencies\": \x7b\x7d\n\x7d" then
        match parseFloat64 12345678901234567890 with
        | some f => Except.ok [("big", Value.num (Int.ofNat f)), ("dependencies", Value.obj [])]
        | none => Except.error "json: cannot unmarshal number into Go value of type float64"
      else Except.error "invalid character",
    MarshalIndent := fun result =>
      match result with
      | [("big", Value.num (Int.ofNat f)), ("dependencies", Value.obj [(k, Value.str v)])] =>
        Except.ok ("\x7b\n  \"big\": " ++ toString (formatFloat64 f)
          ++ ",\n  \"dependencies\": \x7b\n    \"" ++ k ++ "\": \"" ++ v ++ "\"\n  \x7d\n\x7d")
      | _ => Except.error "json: unsupported value",
    marshalLock := fun _ => Except.ok "lock",
    bunInstall := fun d => (d.nodeModules, none),
    fault := fun _ => none }

/-- An environment for `smallProject` in which the text the encoder writes
decodes to the manifest `writePackageJson` encodes. -/
def rereadEnv : Env :=
  { npmGet := communityOnly,
    Unmarshal := fun data =>
      if data = "manifest" then
        Except.ok [("name", Value.str "app"),
          ("dependencies", Value.obj [("left-pad", Value.str "1.3.0")])]
      else if data = "rewritten" then
        Except.ok [("name", Value.str "app"),
          ("dependencies", Value.obj [("left-pad", Value.str "1.3.0"),
            ("@pulumi/aws", Value.str "latest")])]
      else Except.error "invalid character",
    MarshalIndent := fun _ => Except.ok "rewritten",
    marshalLock := fun _ => Except.ok "lock",
    bunInstall := fun d => (d.nodeModules, none),
    fault := fun _ => none }

/-! # Properties -/

/-! ## Reading and writing Go maps -/

theorem mapFind_mapSet_same (m : List (String × Value)) (k : String) (v : Value) :
    mapFind? (mapSet m k v) k = some v := by
  induction m with
  | nil => simp [mapSet, mapFind?]
  | cons kv m ih =>
    obtain ⟨k', v'⟩ := kv
    by_cases h : k' = k
    · simp [mapSet, mapFind?, h]
    · simp [mapSet, mapFind?, h, ih]

theorem mapFind_mapSet_other (m : List (String × Value)) (k k' : String) (v : Value)
    (h : k ≠ k') : mapFind? (mapSet m k v) k' = mapFind? m k' := by
  induction m with
  | nil => simp [mapSet, mapFind?, h]
  | cons kv m ih =>
    obtain ⟨k0, v0⟩ := kv
    by_cases h0 : k0 = k
    · subst h0
      simp [mapSet, mapFind?, h]
    · simp only [mapSet, h0, if_false, mapFind?, ih]

/-! ## `NeedsInstall` -/

/-- When the lengths agree and every lock entry names a declared provider
whose configuration is an object, the loop of `NeedsInstall` returns, and it
returns true exactly when some lock entry's version differs from the
effective version declared for its name. -/
theorem NeedsInstall_loop_declared (providers : List (String × Value))
    (lock : List ProviderLockEntry)
    (h : ∀ entry ∈ lock, ∃ config, (mapGet providers entry.Name).asMap = some config) :
    ∃ b, NeedsInstall.loop providers lock = Exit.ret b ∧
      (b = true ↔ ∃ entry ∈ lock, ∃ config,
        (mapGet providers entry.Name).asMap = some config ∧
        (effectiveVersion (mapGet config "version")).eqString entry.Version = false) := by
  induction lock with
  | nil => exact ⟨false, rfl, by simp⟩
  | cons entry rest ih =>
    obtain ⟨config, hc⟩ := h entry (List.mem_cons_self _ _)
    obtain ⟨b, hb, hiff⟩ := ih (fun e he => h e (List.mem_cons_of_mem _ he))
    by_cases hv : (effectiveVersion (mapGet config "version")).eqString entry.Version = true
    · refine ⟨b, ?_, ?_⟩
      · simp [NeedsInstall.loop, hc, hv, hb]
      · rw [hiff]
        constructor
        · rintro ⟨e, he, c, h1, h2⟩
          exact ⟨e, List.mem_cons_of_mem _ he, c, h1, h2⟩
        · rintro ⟨e, he, c, h1, h2⟩
          rcases List.mem_cons.mp he with rfl | he'
          · rw [hc] at h1
            cases h1
            rw [hv] at h2
            cases h2
          · exact ⟨e, he', c, h1, h2⟩
    · refine ⟨true, ?_, ?_⟩
      · simp [NeedsInstall.loop, hc, hv]
      · simp only [true_iff]
        exact ⟨entry, List.mem_cons_self _ _, config, hc, by simpa using hv⟩

/-- C1 (the code departs from the claim): with one declared provider `gcp`
and a lock of one entry named `aws`, the sizes agree and the declared
provider has no lock entry, so the claim asks for `true`; `NeedsInstall`
reads `p.app.Providers["aws"]`, gets the nil interface and panics in the
type assertion instead of returning. -/
theorem NeedsInstall_panics_on_undeclared_lock_name :
    renamedProject.Providers.length = renamedProject.lock.length ∧
    (∀ entry ∈ renamedProject.lock, entry.Name ≠ "gcp") ∧
    NeedsInstall renamedProject = Exit.panic ∧
    NeedsInstall renamedProject ≠ Exit.ret true := by
  decide

/-! ## The resolution task -/

/-- C2: the resolution task asks the registry for `@sst-provider/n`, then
`@pulumi/n`, then `n`, stops at the first lookup that succeeds, sends the
package returned by that lookup, and makes no later query; a name found in
the first namespace is resolved there whatever the other namespaces hold. -/
theorem resolveTask_first_success (npmGet : String → String → Option String)
    (n v pkg : String) :
    (npmGet ("@sst-provider/" ++ n) v = some pkg →
      resolveTask npmGet n (Value.str v)
        = ([("@sst-provider/" ++ n, v)], TaskResult.send ⟨n, pkg, v, ""⟩)) ∧
    (npmGet ("@sst-provider/" ++ n) v = none → npmGet ("@pulumi/" ++ n) v = some pkg →
      resolveTask npmGet n (Value.str v)
        = ([("@sst-provider/" ++ n, v), ("@pulumi/" ++ n, v)],
            TaskResult.send ⟨n, pkg, v, ""⟩)) ∧
    (npmGet ("@sst-provider/" ++ n) v = none → npmGet ("@pulumi/" ++ n) v = none →
      npmGet ("" ++ n) v = some pkg →
      resolveTask npmGet n (Value.str v)
        = ([("@sst-provider/" ++ n, v), ("@pulumi/" ++ n, v), ("" ++ n, v)],
            TaskResult.send ⟨n, pkg, v, ""⟩)) := by
  refine ⟨?_, ?_, ?_⟩
  · intro h1
    simp [resolveTask, scopes, resolveLoop, Value.asString, h1]
  · intro h1 h2
    simp [resolveTask, scopes, resolveLoop, Value.asString, h1, h2]
  · intro h1 h2 h3
    have h3' : npmGet n v = some pkg := by simpa using h3
    simp [resolveTask, scopes, resolveLoop, Value.asString, h1, h2, h3']

/-- C2, at a registry holding `aws` in both scoped namespaces: the task sends
the package of `@sst-provider/` after a single query. -/
theorem resolveTask_first_success_witness :
    bothScopes ("@sst-provider/" ++ "aws") "latest" = some "@sst-provider/aws" ∧
    bothScopes ("@pulumi/" ++ "aws") "latest" = some "@pulumi/aws" ∧
    resolveTask bothScopes "aws" (Value.str "latest")
      = ([("@sst-provider/" ++ "aws", "latest")],
          TaskResult.send ⟨"aws", "@sst-provider/aws", "latest", ""⟩) :=
  ⟨by decide, by decide,
    (resolveTask_first_success bothScopes "aws" "latest" "@sst-provider/aws").1 (by decide)⟩

/-! ## The goroutines of `generateProviderLock` -/

theorem picks_eq_nil {α : Type} (l : List α) : picks l = [] ↔ l = [] := by
  cases l <;> simp [picks]

theorem perm_of_mem_picks {α : Type} (l : List α) (r : α × List α) (h : r ∈ picks l) :
    l.Perm (r.1 :: r.2) := by
  induction l generalizing r with
  | nil => simp [picks] at h
  | cons x xs ih =>
    simp only [picks, List.mem_cons, List.mem_map] at h
    rcases h with rfl | ⟨r', hr', rfl⟩
    · exact List.Perm.refl _
    · exact ((ih r' hr').cons x).trans (List.Perm.swap _ _ _)

theorem length_of_mem_picks {α : Type} (l : List α) (r : α × List α) (h : r ∈ picks l) :
    l.length = r.2.length + 1 := by
  simpa using (perm_of_mem_picks l r h).length_eq

theorem choose_eq_none {α : Type} (i : Nat) (l : List α) (h : choose i l = none) : l = [] := by
  cases l with
  | nil => rfl
  | cons x xs =>
    have hlt : i % (x :: xs).length < (x :: xs).length := Nat.mod_lt _ (by simp)
    simp only [choose, List.get?_eq_getElem?] at h
    rw [List.getElem?_eq_none_iff] at h
    omega

theorem mem_of_choose {α : Type} (i : Nat) (l : List α) (x : α) (h : choose i l = some x) :
    x ∈ l := by
  exact List.get?_mem h

/-- The four kinds of scheduling step. -/
theorem mem_moves (env : Env) (g g' : Group) (h : g' ∈ moves env g) :
    g.crashed = false ∧
    ((∃ r ∈ picks g.ready, g' = g.runTask env r) ∨
     (0 < g.pending ∧ ∃ r ∈ picks g.sending, g' = g.receive r) ∨
     (g.pending = 0 ∧ g.collected = false ∧ g' = { g with collected := true }) ∨
     (g.ready = [] ∧ g.sending = [] ∧ g.collected = true ∧ g.waited = false ∧
       g' = { g with waited := true })) := by
  unfold moves at h
  by_cases hc : g.crashed = true
  · simp [hc] at h
  · rw [if_neg hc] at h
    simp only [List.mem_append, List.mem_map] at h
    refine ⟨by simpa using hc, ?_⟩
    rcases h with ((⟨r, hr, rfl⟩ | h) | h) | h
    · exact Or.inl ⟨r, hr, rfl⟩
    · by_cases hp : 0 < g.pending
      · rw [if_pos hp, List.mem_map] at h
        obtain ⟨r, hr, rfl⟩ := h
        exact Or.inr (Or.inl ⟨hp, r, hr, rfl⟩)
      · rw [if_neg hp] at h
        cases h
    · by_cases hp : g.pending = 0 ∧ g.collected = false
      · rw [if_pos hp] at h
        exact Or.inr (Or.inr (Or.inl ⟨hp.1, hp.2, List.mem_singleton.mp h⟩))
      · rw [if_neg hp] at h
        cases h
    · by_cases hp : g.ready.isEmpty = true ∧ g.sending.isEmpty = true ∧ g.collected = true
          ∧ g.waited = false
      · rw [if_pos hp] at h
        exact Or.inr (Or.inr (Or.inr
          ⟨List.isEmpty_iff.mp hp.1, List.isEmpty_iff.mp hp.2.1, hp.2.2.1, hp.2.2.2,
            List.mem_singleton.mp h⟩))
      · rw [if_neg hp] at h
        cases h

/-- Every scheduling step uses up budget. -/
theorem budget_decreases (env : Env) (g g' : Group) (h : g' ∈ moves env g) :
    g'.budget < g.budget := by
  obtain ⟨_, h | h | h | h⟩ := mem_moves env g g' h
  · obtain ⟨r, hr, rfl⟩ := h
    have hl := length_of_mem_picks _ _ hr
    unfold Group.runTask Group.budget
    split <;> simp only [List.length_append, List.length_singleton] <;> omega
  · obtain ⟨_, r, hr, rfl⟩ := h
    have hl := length_of_mem_picks _ _ hr
    unfold Group.receive Group.budget
    simp only
    omega
  · obtain ⟨_, hc, rfl⟩ := h
    unfold Group.budget
    simp [hc]
  · obtain ⟨_, _, _, hw, rfl⟩ := h
    unfold Group.budget
    simp [hw]

/-- A run given at least the budget of its start state ends in a state with
no enabled move. -/
theorem run_terminal (env : Env) (sched : Nat → Nat) (fuel : Nat) (g : Group)
    (h : g.budget ≤ fuel) : moves env (run env sched fuel g) = [] := by
  induction fuel generalizing g with
  | zero =>
    simp only [run]
    cases hm : moves env g with
    | nil => rfl
    | cons g' rest =>
      have := budget_decreases env g g' (by simp [hm])
      omega
  | succ fuel ih =>
    simp only [run]
    cases hc : choose (sched fuel) (moves env g) with
    | none => exact choose_eq_none _ _ hc
    | some g' =>
      have := budget_decreases env g g' (mem_of_choose _ _ _ hc)
      exact ih g' (by omega)

/-- A property kept by every scheduling step holds throughout a run. -/
theorem run_invariant (env : Env) (sched : Nat → Nat) (I : Group → Prop)
    (hstep : ∀ g g', I g → g' ∈ moves env g → I g') (fuel : Nat) (g : Group) (h : I g) :
    I (run env sched fuel g) := by
  induction fuel generalizing g with
  | zero => exact h
  | succ fuel ih =>
    simp only [run]
    cases hc : choose (sched fuel) (moves env g) with
    | none => exact h
    | some g' => exact ih g' (hstep g g' h (mem_of_choose _ _ _ hc))

/-- What a state without enabled moves looks like. -/
theorem terminal_cases (env : Env) (g : Group) (hm : moves env g = []) (hc : g.crashed = false) :
    g.ready = [] ∧ (g.pending = 0 ∨ g.sending = []) ∧
    ¬ (g.pending = 0 ∧ g.collected = false) ∧
    ¬ (g.ready = [] ∧ g.sending = [] ∧ g.collected = true ∧ g.waited = false) := by
  unfold moves at hm
  rw [if_neg (by simp [hc])] at hm
  simp only [List.append_eq_nil, List.map_eq_nil_iff, picks_eq_nil] at hm
  obtain ⟨⟨⟨h1, h2⟩, h3⟩, h4⟩ := hm
  refine ⟨h1, ?_, ?_, ?_⟩
  · by_cases hp : 0 < g.pending
    · rw [if_pos hp] at h2
      exact Or.inr (by simpa [picks_eq_nil] using h2)
    · exact Or.inl (by omega)
  · intro hp
    rw [if_pos hp] at h3
    cases h3
  · intro hp
    rw [if_pos ⟨List.isEmpty_iff.mpr hp.1, List.isEmpty_iff.mpr hp.2.1, hp.2.2⟩] at h4
    cases h4

theorem sound_step (env : Env) (g g' : Group) (hg : g.Sound) (h : g' ∈ moves env g) :
    g'.Sound := by
  obtain ⟨h1, h2, h3, h4⟩ := hg
  obtain ⟨_, h | h | h | h⟩ := mem_moves env g g' h
  · obtain ⟨r, hr, rfl⟩ := h
    have hl := length_of_mem_picks _ _ hr
    unfold Group.runTask
    split
    · refine ⟨?_, ?_, h3, h4⟩
      · simp only [List.length_append, List.length_singleton]; omega
      · intro he
        have := h2 he
        simp only [List.length_append, List.length_singleton]; omega
    · refine ⟨?_, ?_, h3, h4⟩
      · simp only; omega
      · intro _
        simp only; omega
    · refine ⟨?_, ?_, h3, h4⟩
      · simp only; omega
      · intro he
        have := h2 he
        simp only; omega
  · obtain ⟨hp, r, hr, rfl⟩ := h
    have hl := length_of_mem_picks _ _ hr
    unfold Group.receive
    refine ⟨?_, ?_, ?_, h4⟩
    · simp only; omega
    · intro he
      have := h2 he
      simp only; omega
    · intro hc
      have := h3 hc
      omega
  · obtain ⟨hp, _, rfl⟩ := h
    exact ⟨h1, h2, fun _ => hp, fun hw => rfl⟩
  · obtain ⟨_, _, hc, _, rfl⟩ := h
    exact ⟨h1, h2, h3, fun _ => hc⟩

theorem sound_init (tasks : List (String × Value)) : (Group.init tasks).Sound := by
  refine ⟨?_, ?_, ?_, ?_⟩ <;> simp [Group.init]

/-- Once `wg.Wait()` has returned, no task has recorded an error: a task that
returns the "not found" error never sends, so the collector never gets the
entry it waits for and never returns. -/
theorem sound_waited_err (g : Group) (hg : g.Sound) (hw : g.waited = true) : g.err = none := by
  obtain ⟨h1, h2, h3, h4⟩ := hg
  by_contra he
  have := h2 he
  have := h3 (h4 hw)
  omega

/-- The error return of `generateProviderLock` (`return err` after
`wg.Wait()`) is never taken. -/
theorem generateProviderLock_no_error (env : Env) (sched : Nat → Nat) (p : Project)
    (e : String) : (generateProviderLock env sched p).1 ≠ Exit.ret (some e) := by
  unfold generateProviderLock
  simp only
  cases hs : spawn (p.enter "generateProviderLock").Providers with
  | none => simp
  | some tasks =>
    simp only
    have hsound := run_invariant env sched Group.Sound (sound_step env)
      (2 * tasks.length + 2) (Group.init tasks) (sound_init tasks)
    split
    · simp
    · split
      · rename_i hw
        rw [sound_waited_err _ hsound hw]
        simp
      · simp

theorem starved_step (env : Env) (g g' : Group) (hg : g.Starved env) (h : g' ∈ moves env g) :
    g'.Starved env := by
  obtain ⟨h1, h2, h3⟩ := hg
  obtain ⟨_, h | h | h | h⟩ := mem_moves env g g' h
  · obtain ⟨r, hr, rfl⟩ := h
    have hp := ((perm_of_mem_picks _ _ hr).filterMap (sends env)).length_eq
    rw [List.filterMap_cons] at hp
    unfold Group.runTask
    split
    · rename_i entry heq
      have hs : sends env r.1 = some entry := by simp [sends, heq]
      rw [hs] at hp
      refine ⟨h1, h2, ?_⟩
      simp only [List.length_append, List.length_cons, List.length_nil] at hp ⊢
      omega
    · rename_i e heq
      have hs : sends env r.1 = none := by simp [sends, heq]
      rw [hs] at hp
      refine ⟨h1, h2, ?_⟩
      simp only at hp ⊢
      omega
    · rename_i heq
      have hs : sends env r.1 = none := by simp [sends, heq]
      rw [hs] at hp
      refine ⟨h1, h2, ?_⟩
      simp only at hp ⊢
      omega
  · obtain ⟨hp, r, hr, rfl⟩ := h
    have hl := length_of_mem_picks _ _ hr
    unfold Group.receive
    refine ⟨h1, h2, ?_⟩
    simp only
    omega
  · obtain ⟨hp, _, rfl⟩ := h
    omega
  · obtain ⟨_, _, hc, _, rfl⟩ := h
    rw [h1] at hc
    cases hc

theorem length_filterMap_lt {α β : Type} (f : α → Option β) (l : List α) (a : α)
    (ha : a ∈ l) (hf : f a = none) : (l.filterMap f).length < l.length := by
  induction l with
  | nil => cases ha
  | cons x xs ih =>
    have hle := List.length_filterMap_le f xs
    rcases List.mem_cons.mp ha with rfl | h
    · rw [List.filterMap_cons, hf]
      simp only [List.length_cons]
      omega
    · have := ih h
      rw [List.filterMap_cons]
      split <;> simp only [List.length_cons] <;> omega

theorem starved_init (env : Env) (tasks : List (String × Value)) (t : String × Value)
    (ht : t ∈ tasks) (hs : sends env t = none) : (Group.init tasks).Starved env := by
  refine ⟨rfl, rfl, ?_⟩
  have := length_filterMap_lt (sends env) tasks t ht hs
  simpa [Group.init] using this

theorem calm_step (env : Env) (g g' : Group) (hg : g.Calm env) (h : g' ∈ moves env g) :
    g'.Calm env := by
  obtain ⟨h1, h2⟩ := hg
  obtain ⟨_, h | h | h | h⟩ := mem_moves env g g' h
  · obtain ⟨r, hr, rfl⟩ := h
    have hperm := perm_of_mem_picks _ _ hr
    have hsub : ∀ t ∈ r.2, (resolveTask env.npmGet t.1 t.2).2 ≠ TaskResult.panic :=
      fun t ht => h2 t (hperm.mem_iff.mpr (List.mem_cons_of_mem _ ht))
    have hhead := h2 r.1 (hperm.mem_iff.mpr (List.mem_cons_self _ _))
    unfold Group.runTask
    split
    · exact ⟨h1, hsub⟩
    · exact ⟨h1, hsub⟩
    · rename_i heq
      exact absurd heq hhead
  · obtain ⟨_, r, _, rfl⟩ := h
    exact ⟨h1, h2⟩
  · obtain ⟨_, _, rfl⟩ := h
    exact ⟨h1, h2⟩
  · obtain ⟨_, _, _, _, rfl⟩ := h
    exact ⟨h1, h2⟩

/-- When no task panics and some task ends without sending, the call of
`generateProviderLock` blocks forever under every schedule: the collector
waits in `<-results` for an entry that no task will send, so `wg.Wait()`
does not return. -/
theorem generateProviderLock_hangs (env : Env) (sched : Nat → Nat) (p : Project)
    (tasks : List (String × Value)) (hs : spawn p.Providers = some tasks)
    (hcalm : ∀ t ∈ tasks, (resolveTask env.npmGet t.1 t.2).2 ≠ TaskResult.panic)
    (t : String × Value) (ht : t ∈ tasks) (hfail : sends env t = none) :
    generateProviderLock env sched p = (Exit.hang, p.enter "generateProviderLock") := by
  have h1 := run_invariant env sched (Group.Starved env) (starved_step env)
    (2 * tasks.length + 2) (Group.init tasks) (starved_init env tasks t ht hfail)
  have h2 := run_invariant env sched (Group.Calm env) (calm_step env)
    (2 * tasks.length + 2) (Group.init tasks) ⟨rfl, hcalm⟩
  unfold generateProviderLock
  have hs' : spawn (p.enter "generateProviderLock").Providers = some tasks := hs
  simp only [hs']
  rw [if_neg (by simp [h2.1]), if_neg (by simp [h1.2.1])]

theorem healthy_step (env : Env) (expected : List ProviderLockEntry) (g g' : Group)
    (hg : g.Healthy env expected) (h : g' ∈ moves env g) : g'.Healthy env expected := by
  obtain ⟨h1, h2, h3, h4, h5⟩ := hg
  obtain ⟨_, h | h | h | h⟩ := mem_moves env g g' h
  · obtain ⟨r, hr, rfl⟩ := h
    have hperm := perm_of_mem_picks _ _ hr
    have hl := hperm.length_eq
    have hsub : ∀ t ∈ r.2, (sends env t).isSome = true :=
      fun t ht => h3 t (hperm.mem_iff.mpr (List.mem_cons_of_mem _ ht))
    have hhead := h3 r.1 (hperm.mem_iff.mpr (List.mem_cons_self _ _))
    have hfm := hperm.filterMap (sends env)
    rw [List.filterMap_cons] at hfm
    unfold Group.runTask
    split
    · rename_i entry heq
      have hs : sends env r.1 = some entry := by simp [sends, heq]
      rw [hs] at hfm
      refine ⟨h1, h2, hsub, ?_, ?_⟩
      · refine List.Perm.trans ?_ h4
        rw [List.perm_iff_count]
        intro a
        have hc := List.perm_iff_count.mp hfm a
        simp only [List.count_append, List.count_cons, List.count_nil] at hc ⊢
        omega
      · simp only [List.length_append, List.length_cons, List.length_nil] at hl ⊢
        omega
    · rename_i e heq
      have hs : sends env r.1 = none := by simp [sends, heq]
      rw [hs] at hhead
      cases hhead
    · rename_i heq
      have hs : sends env r.1 = none := by simp [sends, heq]
      rw [hs] at hhead
      cases hhead
  · obtain ⟨hp, r, hr, rfl⟩ := h
    have hperm := perm_of_mem_picks _ _ hr
    have hl := hperm.length_eq
    unfold Group.receive
    refine ⟨h1, h2, h3, ?_, ?_⟩
    · refine List.Perm.trans ?_ h4
      rw [List.perm_iff_count]
      intro a
      have hc := List.perm_iff_count.mp hperm a
      simp only [List.count_append, List.count_cons, List.count_nil] at hc ⊢
      omega
    · simp only [List.length_cons] at hl ⊢
      omega
  · obtain ⟨_, _, rfl⟩ := h
    exact ⟨h1, h2, h3, h4, h5⟩
  · obtain ⟨_, _, _, _, rfl⟩ := h
    exact ⟨h1, h2, h3, h4, h5⟩

/-- When every spawned task reaches its send, `generateProviderLock` returns
nil under every schedule and leaves in `p.lock` a permutation of the entries
the tasks send. -/
theorem generateProviderLock_collects (env : Env) (sched : Nat → Nat) (p : Project)
    (tasks : List (String × Value)) (hs : spawn p.Providers = some tasks)
    (hall : ∀ t ∈ tasks, (sends env t).isSome = true) :
    ∃ lock, generateProviderLock env sched p
        = (Exit.ret none, { p.enter "generateProviderLock" with lock := lock }) ∧
      lock.Perm (tasks.filterMap (sends env)) := by
  have hinit : (Group.init tasks).Healthy env (tasks.filterMap (sends env)) :=
    ⟨rfl, rfl, hall, by simp [Group.init], by simp [Group.init]⟩
  have hH := run_invariant env sched (Group.Healthy env (tasks.filterMap (sends env)))
    (healthy_step env _) (2 * tasks.length + 2) (Group.init tasks) hinit
  have hT := run_terminal env sched (2 * tasks.length + 2) (Group.init tasks)
    (by simp [Group.budget, Group.init])
  obtain ⟨h1, h2, h3, h4, h5⟩ := hH
  obtain ⟨t1, t2, t3, t4⟩ := terminal_cases env _ hT h1
  have hsend : (run env sched (2 * tasks.length + 2) (Group.init tasks)).sending = [] := by
    rcases t2 with hp | hs
    · rw [hp, t1] at h5
      simp only [List.length_nil, Nat.zero_add] at h5
      exact List.length_eq_zero.mp h5.symm
    · exact hs
  have hpend : (run env sched (2 * tasks.length + 2) (Group.init tasks)).pending = 0 := by
    rw [h5, t1, hsend]; rfl
  have hcoll : (run env sched (2 * tasks.length + 2) (Group.init tasks)).collected = true := by
    by_contra hc
    exact t3 ⟨hpend, by simpa using hc⟩
  have hwait : (run env sched (2 * tasks.length + 2) (Group.init tasks)).waited = true := by
    by_contra hw
    exact t4 ⟨t1, hsend, hcoll, by simpa using hw⟩
  refine ⟨(run env sched (2 * tasks.length + 2) (Group.init tasks)).out, ?_, ?_⟩
  · unfold generateProviderLock
    have hs' : spawn (p.enter "generateProviderLock").Providers = some tasks := hs
    simp only [hs']
    rw [if_neg (by simp [h1]), if_pos hwait, h2]
  · rw [t1, hsend] at h4
    simpa using h4

/-- The resolution task of the source computes the Registry Resolver of the
specification. -/
theorem resolveTask_spec (npmGet : String → String → Option String) (n v : String) :
    (resolveTask npmGet n (Value.str v)).2 =
      match specResolve npmGet n v with
      | some pkg => TaskResult.send ⟨n, pkg, v, ""⟩
      | none => TaskResult.fail ("provider " ++ n ++ " not found") := by
  unfold specResolve
  cases h1 : npmGet ("@sst-provider/" ++ n) v with
  | some pkg => simp [resolveTask, scopes, resolveLoop, Value.asString, h1]
  | none =>
    cases h2 : npmGet ("@pulumi/" ++ n) v with
    | some pkg => simp [resolveTask, scopes, resolveLoop, Value.asString, h1, h2]
    | none =>
      cases h3 : npmGet n v with
      | some pkg => simp [resolveTask, scopes, resolveLoop, Value.asString, h1, h2, h3]
      | none => simp [resolveTask, scopes, resolveLoop, Value.asString, h1, h2, h3]

/-- The version a task captures is the normalized selector of the
specification, when the declared `version` is absent, null or a string. -/
theorem effectiveVersion_spec (fields : List (String × Value))
    (h : (match mapGet fields "version" with
      | Value.null => true
      | Value.str _ => true
      | _ => false) = true) :
    effectiveVersion (mapGet fields "version")
      = Value.str (specVersion (versionSelector (Value.obj fields))) := by
  unfold versionSelector
  cases hv : mapGet fields "version" with
  | null => simp [effectiveVersion, Value.asString, specVersion, hv]
  | str s =>
    by_cases hs : s = ""
    · simp [effectiveVersion, Value.asString, specVersion, Value.eqString, hs, hv]
    · simp [effectiveVersion, Value.asString, specVersion, Value.eqString, hs, hv]
  | bool b => rw [hv] at h; cases h
  | num n => rw [hv] at h; cases h
  | arr items => rw [hv] at h; cases h
  | obj fs => rw [hv] at h; cases h

theorem sends_of_resolves (env : Env) (d : String × Value)
    (h : resolves env.npmGet d = true) :
    (∃ fields, d.2.asMap = some fields) ∧ sends env (taskOf d) = some (expectedEntry env.npmGet d) := by
  obtain ⟨n, cfg⟩ := d
  cases cfg with
  | obj fields =>
    simp only [resolves, Bool.and_eq_true] at h
    obtain ⟨hv, hr⟩ := h
    refine ⟨⟨fields, rfl⟩, ?_⟩
    have he := effectiveVersion_spec fields hv
    obtain ⟨pkg, hpkg⟩ := Option.isSome_iff_exists.mp hr
    simp only [sends, taskOf, Value.asMap, Option.getD_some, he, resolveTask_spec, hpkg,
      expectedEntry, Option.getD_some]
  | null => simp [resolves] at h
  | bool b => simp [resolves] at h
  | num k => simp [resolves] at h
  | str s => simp [resolves] at h
  | arr items => simp [resolves] at h

theorem sends_of_unresolvable (env : Env) (d : String × Value)
    (h : unresolvable env.npmGet d = true) :
    (∃ fields, d.2.asMap = some fields) ∧ sends env (taskOf d) = none ∧
      (resolveTask env.npmGet (taskOf d).1 (taskOf d).2).2 ≠ TaskResult.panic := by
  obtain ⟨n, cfg⟩ := d
  cases cfg with
  | obj fields =>
    simp only [unresolvable, Bool.and_eq_true] at h
    obtain ⟨hv, hr⟩ := h
    refine ⟨⟨fields, rfl⟩, ?_⟩
    have he := effectiveVersion_spec fields hv
    have hnone := Option.isNone_iff_eq_none.mp hr
    simp only [sends, taskOf, Value.asMap, Option.getD_some, he, resolveTask_spec, hnone]
    simp
  | null => simp [unresolvable] at h
  | bool b => simp [unresolvable] at h
  | num k => simp [unresolvable] at h
  | str s => simp [unresolvable] at h
  | arr items => simp [unresolvable] at h

theorem spawn_of_objects (providers : List (String × Value))
    (h : ∀ d ∈ providers, ∃ fields, d.2.asMap = some fields) :
    spawn providers = some (providers.map taskOf) := by
  induction providers with
  | nil => rfl
  | cons d rest ih =>
    obtain ⟨n, cfg⟩ := d
    obtain ⟨fields, hf⟩ := h (n, cfg) (List.mem_cons_self _ _)
    have hf' : cfg.asMap = some fields := hf
    simp [spawn, hf', ih (fun d hd => h d (List.mem_cons_of_mem _ hd)), taskOf]

/-- C8: when every declared provider resolves, `generateProviderLock` returns
nil under every schedule of its goroutines, and the lock it leaves in memory
is a permutation of the list holding, for each declared provider, the entry
with its name, the resolver's package, the normalized version and an empty
alias; so the locks of two runs, under any two schedules, are permutations of
each other. -/
theorem generateProviderLock_all_resolve (env : Env) (sched sched' : Nat → Nat) (p : Project)
    (h : ∀ d ∈ p.Providers, resolves env.npmGet d = true) :
    ∃ lock lock',
      generateProviderLock env sched p
        = (Exit.ret none, { p.enter "generateProviderLock" with lock := lock }) ∧
      lock.Perm (expectedLock env.npmGet p.Providers) ∧
      generateProviderLock env sched' p
        = (Exit.ret none, { p.enter "generateProviderLock" with lock := lock' }) ∧
      lock'.Perm lock := by
  have hspawn := spawn_of_objects p.Providers (fun d hd => (sends_of_resolves env d (h d hd)).1)
  have hall : ∀ t ∈ p.Providers.map taskOf, (sends env t).isSome = true := by
    intro t ht
    obtain ⟨d, hd, rfl⟩ := List.mem_map.mp ht
    rw [(sends_of_resolves env d (h d hd)).2]
    rfl
  have hexp : (p.Providers.map taskOf).filterMap (sends env)
      = expectedLock env.npmGet p.Providers := by
    unfold expectedLock
    generalize p.Providers = l at h
    induction l with
    | nil => rfl
    | cons d rest ih =>
      rw [List.map_cons, List.filterMap_cons,
        (sends_of_resolves env d (h d (List.mem_cons_self _ _))).2, List.map_cons,
        ih (fun d hd => h d (List.mem_cons_of_mem _ hd))]
  obtain ⟨lock, h1, h2⟩ := generateProviderLock_collects env sched p _ hspawn hall
  obtain ⟨lock', h3, h4⟩ := generateProviderLock_collects env sched' p _ hspawn hall
  rw [hexp] at h2 h4
  exact ⟨lock, lock', h1, h2, h3, h4.trans h2.symm⟩

/-- C8, at two providers found in the community namespace. -/
theorem generateProviderLock_all_resolve_witness :
    (∀ d ∈ twoProviders.Providers, resolves communityEnv.npmGet d = true) ∧
    ∃ lock lock',
      generateProviderLock communityEnv (fun _ => 0) twoProviders
        = (Exit.ret none, { twoProviders.enter "generateProviderLock" with lock := lock }) ∧
      lock.Perm (expectedLock communityEnv.npmGet twoProviders.Providers) ∧
      generateProviderLock communityEnv (fun k => k) twoProviders
        = (Exit.ret none, { twoProviders.enter "generateProviderLock" with lock := lock' }) ∧
      lock'.Perm lock :=
  ⟨by decide,
    generateProviderLock_all_resolve communityEnv (fun _ => 0) (fun k => k) twoProviders
      (by decide)⟩

/-- When every declared provider either resolves or is in no namespace of the
registry, and at least one is in none, `generateProviderLock` blocks forever
under every schedule. -/
theorem generateProviderLock_unresolved_hangs (env : Env) (sched : Nat → Nat) (p : Project)
    (h : ∀ d ∈ p.Providers, resolves env.npmGet d = true ∨ unresolvable env.npmGet d = true)
    (d : String × Value) (hd : d ∈ p.Providers) (hu : unresolvable env.npmGet d = true) :
    generateProviderLock env sched p = (Exit.hang, p.enter "generateProviderLock") := by
  have hobj : ∀ d ∈ p.Providers, ∃ fields, d.2.asMap = some fields := by
    intro d hd
    rcases h d hd with hr | hr
    · exact (sends_of_resolves env d hr).1
    · exact (sends_of_unresolvable env d hr).1
  refine generateProviderLock_hangs env sched p _ (spawn_of_objects _ hobj) ?_ (taskOf d)
    (List.mem_map_of_mem _ hd) (sends_of_unresolvable env d hu).2.1
  intro t ht
  obtain ⟨d', hd', rfl⟩ := List.mem_map.mp ht
  rcases h d' hd' with hr | hr
  · have := (sends_of_resolves env d' hr).2
    intro hp
    simp [sends, hp] at this
  · exact (sends_of_unresolvable env d' hr).2.2

/-! ## `writePackageJson` -/

theorem loop_append (dependencies : List (String × Value)) (pre post : List ProviderLockEntry) :
    writePackageJson.loop dependencies (pre ++ post)
      = writePackageJson.loop (writePackageJson.loop dependencies pre) post := by
  induction pre generalizing dependencies with
  | nil => rfl
  | cons e pre ih =>
    rw [List.cons_append]
    simp only [writePackageJson.loop]
    exact ih _

theorem loop_other (dependencies : List (String × Value)) (lock : List ProviderLockEntry)
    (k : String) (h : ∀ e ∈ lock, e.Package ≠ k) :
    mapFind? (writePackageJson.loop dependencies lock) k = mapFind? dependencies k := by
  induction lock generalizing dependencies with
  | nil => rfl
  | cons e rest ih =>
    simp only [writePackageJson.loop]
    rw [ih _ (fun e' he' => h e' (List.mem_cons_of_mem _ he')),
      mapFind_mapSet_other _ _ _ _ (h e (List.mem_cons_self _ _))]

theorem loop_keeps (dependencies : List (String × Value)) (post : List ProviderLockEntry)
    (k v : String) (hd : mapFind? dependencies k = some (Value.str v))
    (h : ∀ e ∈ post, e.Package = k → e.Version = v) :
    mapFind? (writePackageJson.loop dependencies post) k = some (Value.str v) := by
  induction post generalizing dependencies with
  | nil => exact hd
  | cons e rest ih =>
    simp only [writePackageJson.loop]
    refine ih _ ?_ (fun e' he' => h e' (List.mem_cons_of_mem _ he'))
    by_cases hk : e.Package = k
    · rw [← h e (List.mem_cons_self _ _) hk, ← hk]
      exact mapFind_mapSet_same _ _ _
    · rw [mapFind_mapSet_other _ _ _ _ hk]
      exact hd

theorem mapSet_isSome (m : List (String × Value)) (k k' : String) (v : Value)
    (h : (mapFind? m k').isSome = true) : (mapFind? (mapSet m k v) k').isSome = true := by
  by_cases hk : k = k'
  · subst hk
    rw [mapFind_mapSet_same]
    rfl
  · rw [mapFind_mapSet_other _ _ _ _ hk]
    exact h

theorem loop_isSome (dependencies : List (String × Value)) (lock : List ProviderLockEntry)
    (k : String) (h : (mapFind? dependencies k).isSome = true) :
    (mapFind? (writePackageJson.loop dependencies lock) k).isSome = true := by
  induction lock generalizing dependencies with
  | nil => exact h
  | cons e rest ih =>
    simp only [writePackageJson.loop]
    exact ih _ (mapSet_isSome _ _ _ _ h)

/-- The shape of the updated manifest. -/
theorem update_eq (lock : List ProviderLockEntry) (result dependencies : List (String × Value))
    (hdeps : (mapGet result "dependencies").asMap = some dependencies) :
    writePackageJson.update lock result
      = some (mapSet result "dependencies"
          (Value.obj (writePackageJson.loop dependencies lock))) := by
  simp only [writePackageJson.update, hdeps]

theorem mapGet_mapSet_same (m : List (String × Value)) (k : String) (v : Value) :
    mapGet (mapSet m k v) k = v := by
  simp only [mapGet, mapFind_mapSet_same, Option.getD_some]

/-- A nil return of `writePackageJson`: the manifest decoded, the update did
not panic, and the text written is the encoding of the updated manifest. -/
theorem writePackageJson_ret_nil (env : Env) (p p' : Project)
    (hok : writePackageJson env p = (Exit.ret none, p')) :
    ∃ result result' text,
      env.Unmarshal (p.disk.packageJson.getD "") = Except.ok result ∧
      writePackageJson.update p.lock result = some result' ∧
      env.MarshalIndent result' = Except.ok text ∧
      p' = { p.enter "writePackageJson" with
        disk := { p.disk with packageJson := some text } } := by
  unfold writePackageJson at hok
  simp only [Project.enter] at hok
  split at hok
  · simp at hok
  · split at hok
    · simp at hok
    · split at hok
      · simp at hok
      · rename_i result hres
        split at hok
        · simp at hok
        · rename_i result' hupd
          split at hok
          · simp at hok
          · rename_i text htext
            split at hok
            · simp at hok
            · split at hok
              · simp at hok
              · split at hok
                · simp at hok
                · refine ⟨result, result', text, hres, hupd, htext, ?_⟩
                  simp only [Prod.mk.injEq, true_and] at hok
                  rw [← hok]
                  rfl

/-- C6 (as amended): after a nil return of `writePackageJson` on a manifest
that decodes to an object with a `dependencies` object, the text written is
the encoding of a manifest whose `dependencies[entry.Package]` is
`entry.Version` for every lock entry that no later entry contradicts (every
later entry with the same package has the same version); a package shared by
several entries gets the version of the last of them. -/
theorem writePackageJson_sets_dependencies (env : Env) (p p' : Project)
    (result dependencies : List (String × Value))
    (hparse : env.Unmarshal (p.disk.packageJson.getD "") = Except.ok result)
    (hdeps : (mapGet result "dependencies").asMap = some dependencies)
    (hok : writePackageJson env p = (Exit.ret none, p')) :
    ∃ result' dependencies' text,
      writePackageJson.update p.lock result = some result' ∧
      env.MarshalIndent result' = Except.ok text ∧
      p'.disk.packageJson = some text ∧
      (mapGet result' "dependencies").asMap = some dependencies' ∧
      ∀ pre entry post, p.lock = pre ++ entry :: post →
        (∀ e ∈ post, e.Package = entry.Package → e.Version = entry.Version) →
        mapFind? dependencies' entry.Package = some (Value.str entry.Version) := by
  obtain ⟨result0, result', text, h0, hupd, htext, hp'⟩ := writePackageJson_ret_nil env p p' hok
  rw [hparse] at h0
  cases h0
  have hu := update_eq p.lock result dependencies hdeps
  rw [hupd] at hu
  cases hu
  refine ⟨_, writePackageJson.loop dependencies p.lock, text, hupd, htext, by rw [hp'], ?_, ?_⟩
  · rw [mapGet_mapSet_same]
    rfl
  · intro pre entry post hlock hpost
    rw [hlock, loop_append]
    simp only [writePackageJson.loop]
    exact loop_keeps _ post _ _ (mapFind_mapSet_same _ _ _) hpost

/-- C6 (as amended), on a manifest with one dependency and a lock of one
entry. -/
theorem writePackageJson_sets_dependencies_witness :
    ∃ result' dependencies' text,
      writePackageJson.update smallProject.lock
        [("name", Value.str "app"),
          ("dependencies", Value.obj [("left-pad", Value.str "1.3.0")])] = some result' ∧
      manifestEnv.MarshalIndent result' = Except.ok text ∧
      (writePackageJson manifestEnv smallProject).2.disk.packageJson = some text ∧
      (mapGet result' "dependencies").asMap = some dependencies' ∧
      ∀ pre entry post, smallProject.lock = pre ++ entry :: post →
        (∀ e ∈ post, e.Package = entry.Package → e.Version = entry.Version) →
        mapFind? dependencies' entry.Package = some (Value.str entry.Version) :=
  writePackageJson_sets_dependencies manifestEnv smallProject
    (writePackageJson manifestEnv smallProject).2
    [("name", Value.str "app"), ("dependencies", Value.obj [("left-pad", Value.str "1.3.0")])]
    [("left-pad", Value.str "1.3.0")] rfl rfl rfl

/-- C6 (as stated) fails: with two lock entries for the package
`@pulumi/aws`, at versions `6.0.0` and `5.0.0`, `writePackageJson` returns nil
and the manifest it encodes has `dependencies["@pulumi/aws"] = "5.0.0"`, which
is not the version of the first entry. -/
theorem writePackageJson_shared_package_counterexample :
    (writePackageJson communityEnv sharedPackage).1 = Exit.ret none ∧
    writePackageJson.update sharedPackage.lock [("dependencies", Value.obj [])]
      = some [("dependencies", Value.obj [("@pulumi/aws", Value.str "5.0.0")])] ∧
    ∃ entry ∈ sharedPackage.lock,
      mapFind? [("@pulumi/aws", Value.str "5.0.0")] entry.Package
        ≠ some (Value.str entry.Version) := by
  refine ⟨rfl, rfl, ⟨"aws", "@pulumi/aws", "6.0.0", ""⟩, ?_, ?_⟩
  · simp [sharedPackage]
  · simp [mapFind?]

/-- C7 (the code departs from the claim): when the manifest decodes to an
object whose `dependencies` is missing or is not an object, `writePackageJson`
does not return an error: the type assertion
`result["dependencies"].(map[string]interface{})` panics.  Nothing is written
to the manifest. -/
theorem writePackageJson_panics_without_dependencies (env : Env) (p : Project)
    (result : List (String × Value))
    (hopen : env.fault Sys.openPackageJson = none)
    (hread : env.fault Sys.readPackageJson = none)
    (hparse : env.Unmarshal (p.disk.packageJson.getD "") = Except.ok result)
    (hdeps : (mapGet result "dependencies").asMap = none) :
    writePackageJson env p
      = (Exit.panic, { p.enter "writePackageJson" with
          disk := { p.disk with packageJson := some (p.disk.packageJson.getD "") } }) := by
  unfold writePackageJson
  simp only [Project.enter, hopen, hread, hparse, writePackageJson.update, hdeps]

/-- C7, on a `package.json` holding the empty object: the call panics and the
file still holds the empty object. -/
theorem writePackageJson_panics_without_dependencies_witness :
    manifestEnv.Unmarshal (emptyManifest.disk.packageJson.getD "") = Except.ok [] ∧
    (mapGet [] "dependencies").asMap = none ∧
    writePackageJson manifestEnv emptyManifest
      = (Exit.panic, { emptyManifest.enter "writePackageJson" with
          disk := { emptyManifest.disk with
            packageJson := some (emptyManifest.disk.packageJson.getD "") } }) :=
  ⟨rfl, rfl,
    writePackageJson_panics_without_dependencies manifestEnv emptyManifest [] rfl rfl rfl rfl⟩

/-- The part of C7 the code does satisfy: when the manifest text does not
decode, `writePackageJson` returns the decoder's error and leaves the text of
the manifest as it was. -/
theorem writePackageJson_invalid_json (env : Env) (p : Project) (e : String)
    (hopen : env.fault Sys.openPackageJson = none)
    (hread : env.fault Sys.readPackageJson = none)
    (hparse : env.Unmarshal (p.disk.packageJson.getD "") = Except.error e) :
    writePackageJson env p
      = (Exit.ret (some e), { p.enter "writePackageJson" with
          disk := { p.disk with packageJson := some (p.disk.packageJson.getD "") } }) := by
  unfold writePackageJson
  simp only [Project.enter, hopen, hread, hparse]

/-- C9 (as amended): after a nil return of `writePackageJson` on a manifest
that decodes to an object with a `dependencies` object, when the text written
decodes again to the manifest that was encoded, re-reading the manifest gives
every top-level key other than `dependencies` the decoded value it had before,
gives every key of `dependencies` that is not the package of a lock entry the
decoded value it had before, and every key present before is still present, at
the top level and in `dependencies`. -/
theorem writePackageJson_reread_frame (env : Env) (p p' : Project)
    (result dependencies : List (String × Value))
    (hparse : env.Unmarshal (p.disk.packageJson.getD "") = Except.ok result)
    (hdeps : (mapGet result "dependencies").asMap = some dependencies)
    (hok : writePackageJson env p = (Exit.ret none, p'))
    (hreread : ∀ result' text, writePackageJson.update p.lock result = some result' →
      env.MarshalIndent result' = Except.ok text → env.Unmarshal text = Except.ok result') :
    ∃ result' dependencies' text,
      writePackageJson.update p.lock result = some result' ∧
      env.MarshalIndent result' = Except.ok text ∧
      p'.disk.packageJson = some text ∧
      env.Unmarshal text = Except.ok result' ∧
      (mapGet result' "dependencies").asMap = some dependencies' ∧
      (∀ k, k ≠ "dependencies" → mapFind? result' k = mapFind? result k) ∧
      (∀ k, (∀ e ∈ p.lock, e.Package ≠ k) →
        mapFind? dependencies' k = mapFind? dependencies k) ∧
      (∀ k, (mapFind? result k).isSome = true → (mapFind? result' k).isSome = true) ∧
      (∀ k, (mapFind? dependencies k).isSome = true →
        (mapFind? dependencies' k).isSome = true) := by
  obtain ⟨result0, result', text, h0, hupd, htext, hp'⟩ := writePackageJson_ret_nil env p p' hok
  rw [hparse] at h0
  cases h0
  have hre := hreread result' text hupd htext
  have hu := update_eq p.lock result dependencies hdeps
  rw [hupd] at hu
  cases hu
  refine ⟨_, writePackageJson.loop dependencies p.lock, text, hupd, htext, by rw [hp'], hre,
    ?_, ?_, ?_, ?_, ?_⟩
  · rw [mapGet_mapSet_same]
    rfl
  · intro k hk
    exact mapFind_mapSet_other _ _ _ _ (Ne.symm hk)
  · intro k hk
    exact loop_other _ _ _ hk
  · intro k hk
    exact mapSet_isSome _ _ _ _ hk
  · intro k hk
    exact loop_isSome _ _ _ hk

/-- C9 (as amended), on a manifest with a name and one dependency: both
survive the rewrite and the re-reading. -/
theorem writePackageJson_reread_frame_witness :
    ∃ result' dependencies' text,
      writePackageJson.update smallProject.lock
        [("name", Value.str "app"),
          ("dependencies", Value.obj [("left-pad", Value.str "1.3.0")])] = some result' ∧
      rereadEnv.MarshalIndent result' = Except.ok text ∧
      (writePackageJson rereadEnv smallProject).2.disk.packageJson = some text ∧
      rereadEnv.Unmarshal text = Except.ok result' ∧
      (mapGet result' "dependencies").asMap = some dependencies' ∧
      (∀ k, k ≠ "dependencies" → mapFind? result' k
        = mapFind? [("name", Value.str "app"),
            ("dependencies", Value.obj [("left-pad", Value.str "1.3.0")])] k) ∧
      (∀ k, (∀ e ∈ smallProject.lock, e.Package ≠ k) →
        mapFind? dependencies' k = mapFind? [("left-pad", Value.str "1.3.0")] k) ∧
      (∀ k, (mapFind? [("name", Value.str "app"),
            ("dependencies", Value.obj [("left-pad", Value.str "1.3.0")])] k).isSome = true →
        (mapFind? result' k).isSome = true) ∧
      (∀ k, (mapFind? [("left-pad", Value.str "1.3.0")] k).isSome = true →
        (mapFind? dependencies' k).isSome = true) :=
  writePackageJson_reread_frame rereadEnv smallProject
    (writePackageJson rereadEnv smallProject).2
    [("name", Value.str "app"), ("dependencies", Value.obj [("left-pad", Value.str "1.3.0")])]
    [("left-pad", Value.str "1.3.0")] rfl rfl rfl
    (fun result' text hupd htext => by
      have h1 : some [("name", Value.str "app"),
          ("dependencies", Value.obj [("left-pad", Value.str "1.3.0"),
            ("@pulumi/aws", Value.str "latest")])] = some result' := hupd
      have h2 : (Except.ok "rewritten" : Except String String) = Except.ok text := htext
      cases h1
      cases h2
      rfl)

set_option maxRecDepth 8000 in
/-- C9 (as stated) fails: the manifest holds `"big": 12345678901234567890`
next to an empty `dependencies`.  `json.Unmarshal` stores the number as the
nearest float64, 12345678901234567168; `writePackageJson` returns nil, and the
text it writes holds `"big": 12345678901234567000`, the shortest decimal of
that float64: the key `big`, which is not `dependencies`, has lost its
previous value. -/
theorem writePackageJson_number_counterexample :
    numberProject.disk.packageJson = some
      "\x7b\n  \"big\": 12345678901234567890,\n  \"dependencies\": \x7b\x7d\n\x7d" ∧
    parseFloat64 12345678901234567890 = some 12345678901234567168 ∧
    formatFloat64 12345678901234567168 = 12345678901234567000 ∧
    (writePackageJson numberEnv numberProject).1 = Exit.ret none ∧
    (writePackageJson numberEnv numberProject).2.disk.packageJson = some
      "\x7b\n  \"big\": 12345678901234567000,\n  \"dependencies\": \x7b\n    \"@pulumi/aws\": \"latest\"\n  \x7d\n\x7d" := by
  refine ⟨rfl, by decide, by decide, by decide, by decide⟩

/-! ## `generateProviderLock` with a provider that is not in the registry -/

/-- C3 (the code departs from the claim): with three declared providers of
which the second is in no namespace of the registry, `generateProviderLock`
returns no error under any schedule.  The task of the second provider returns
its "not found" error to the `errgroup`, the collector receives the two
entries that are sent and then waits in `<-results` for a third, and
`wg.Wait()` waits for the collector: the call, and `Install` with it, blocks
forever.  The lock in memory and the lock file stay as they were. -/
theorem generateProviderLock_blocks_on_unresolved (sched : Nat → Nat) :
    generateProviderLock communityEnv sched threeProviders
      = (Exit.hang, threeProviders.enter "generateProviderLock") ∧
    Install communityEnv sched threeProviders
      = (Exit.hang, (threeProviders.enter "Install").enter "generateProviderLock") ∧
    (Install communityEnv sched threeProviders).2.lock = threeProviders.lock ∧
    (Install communityEnv sched threeProviders).2.disk.providerLock
      = threeProviders.disk.providerLock := by
  have h1 := generateProviderLock_unresolved_hangs communityEnv sched threeProviders
    (by decide) ("nope", Value.obj []) (by simp [threeProviders]) (by decide)
  have h2 := generateProviderLock_unresolved_hangs communityEnv sched
    (threeProviders.enter "Install") (by decide) ("nope", Value.obj [])
    (by simp [threeProviders, Project.enter]) (by decide)
  have h3 : Install communityEnv sched threeProviders
      = (Exit.hang, (threeProviders.enter "Install").enter "generateProviderLock") := by
    unfold Install
    simp only [h2]
  refine ⟨h1, h3, ?_, ?_⟩
  · rw [h3]; rfl
  · rw [h3]; rfl

/-! ## The pattern of the alias scan -/

theorem stripLiteral_append (lit s : List Char) : stripLiteral lit (lit ++ s) = some s := by
  induction lit with
  | nil => cases s <;> rfl
  | cons m ms ih => simp [stripLiteral, ih]

theorem takeWhile_ident (ident rest : List Char) (q : Char) (hq : isQuote q = true)
    (hid : ∀ c ∈ ident, isQuote c = false) :
    (ident ++ q :: rest).takeWhile (fun c => !isQuote c) = ident ∧
    (ident ++ q :: rest).dropWhile (fun c => !isQuote c) = q :: rest := by
  induction ident with
  | nil => simp [List.takeWhile, List.dropWhile, hq]
  | cons c cs ih =>
    have hc := hid c (List.mem_cons_self _ _)
    have := ih (fun c' hc' => hid c' (List.mem_cons_of_mem _ hc'))
    simp [List.takeWhile, List.dropWhile, hc, this.1, this.2]

/-- A line that starts with the marker, a quote, a non-empty identifier free
of quotes and a closing quote matches the pattern, and capture group 1 is the
identifier. -/
theorem findSubmatch_quoted (q q' : Char) (ident rest : List Char)
    (hq : isQuote q = true) (hq' : isQuote q' = true) (hne : ident ≠ [])
    (hid : ∀ c ∈ ident, isQuote c = false) :
    findSubmatch (marker ++ q :: (ident ++ q' :: rest)) = some ident := by
  have hm : matchHere (marker ++ q :: (ident ++ q' :: rest)) = some ident := by
    have h := takeWhile_ident ident rest q' hq' hid
    unfold matchHere
    rw [stripLiteral_append]
    simp only [hq, if_true, h.1, h.2]
    cases ident with
    | nil => exact absurd rfl hne
    | cons c cs => rfl
  have hcons : ∃ c cs, marker ++ q :: (ident ++ q' :: rest) = c :: cs := ⟨_, _, rfl⟩
  obtain ⟨c, cs, hcs⟩ := hcons
  rw [hcs] at hm ⊢
  simp only [findSubmatch, hm]

/-! ## `fetchDeps` -/

theorem scan_first_match (pre post : List String) (line : String) (ident : List Char)
    (hpre : ∀ l ∈ pre, findSubmatch l.data = none)
    (hmatch : findSubmatch line.data = some ident) :
    fetchDeps.scan (pre ++ line :: post) = some (removeHyphens ident) := by
  induction pre with
  | nil => simp [fetchDeps.scan, hmatch]
  | cons l pre ih =>
    rw [List.cons_append]
    simp only [fetchDeps.scan, hpre l (List.mem_cons_self _ _)]
    exact ih (fun l' hl' => hpre l' (List.mem_cons_of_mem _ hl'))

/-- C5 (as amended): when the artifact of a lock entry can be opened, the
scanner delivers a line that matches the pattern (no line of 64 KiB or more
comes before it), and the identifier of the first such line has a character
other than the hyphen, the loop body of `fetchDeps` returns no error for that
entry and sets its alias to that identifier with every hyphen removed; later
lines are not looked at. -/
theorem fetchDeps_visit_first_match (d : Disk) (entry : ProviderLockEntry) (text : String)
    (pre post : List String) (line : String) (ident : List Char)
    (hopen : d.artifact entry.Package = some text)
    (hscan : (newScanner text).1 = pre ++ line :: post)
    (hpre : ∀ l ∈ pre, findSubmatch l.data = none)
    (hmatch : findSubmatch line.data = some ident)
    (hne : removeHyphens ident ≠ "") :
    fetchDeps.visit d entry = (none, { entry with Alias := removeHyphens ident }) := by
  unfold fetchDeps.visit
  simp only [hopen, hscan, scan_first_match pre post line ident hpre hmatch]
  rw [if_neg hne]

/-- C5 (as amended), on the example of the specification: an artifact with
the line `Provider.__pulumiType = "my-cool-thing";` yields the alias
`mycoolthing`, and the later assignment of `other` is ignored. -/
theorem fetchDeps_visit_first_match_witness :
    fetchDeps.visit coolDisk ⟨"aws", "@pulumi/aws", "latest", ""⟩
      = (none, ⟨"aws", "@pulumi/aws", "latest", "mycoolthing"⟩) :=
  fetchDeps_visit_first_match coolDisk ⟨"aws", "@pulumi/aws", "latest", ""⟩
    "exports.Provider = Provider;\nProvider.__pulumiType = \"my-cool-thing\";\nProvider.__pulumiType = 'other';\n"
    ["exports.Provider = Provider;"] ["Provider.__pulumiType = 'other';"]
    "Provider.__pulumiType = \"my-cool-thing\";" "my-cool-thing".data
    (by decide) (by decide) (by decide) (by decide) (by decide)

/-- C5 (as stated) fails: the artifact holds the matching line
`Provider.__pulumiType = "--";`, the loop sets the alias to the identifier
without its hyphens, which is empty, and the check `entry.Alias == ""` that
follows makes `fetchDeps` return the "failed to find" error. -/
theorem fetchDeps_hyphen_counterexample :
    (newScanner "Provider.__pulumiType = \"--\";\n").1 = ["Provider.__pulumiType = \"--\";"] ∧
    findSubmatch "Provider.__pulumiType = \"--\";".data = some "--".data ∧
    fetchDeps.visit hyphenDisk ⟨"aws", "@pulumi/aws", "latest", ""⟩
      = (some "failed to find __pulumiType for @pulumi/aws",
          ⟨"aws", "@pulumi/aws", "latest", ""⟩) ∧
    (fetchDeps communityEnv hyphenProject).1
      = Exit.ret (some "failed to find __pulumiType for @pulumi/aws") := by
  refine ⟨by decide, by decide, by decide, by decide⟩

/-! ## `writeTypes` -/

theorem foldl_append_lines (g : ProviderLockEntry → String) (lock : List ProviderLockEntry)
    (file : String) :
    lock.foldl (fun file entry => file ++ g entry) file = file ++ concatLines (lock.map g) := by
  induction lock generalizing file with
  | nil => simp [concatLines]
  | cons e rest ih =>
    simp only [List.foldl_cons, List.map_cons, concatLines, ih, String.append_assoc]

/-- C10: when the file can be opened, `writeTypes` returns nil and the text of
`config.d.ts` is the type-stub file of the specification for the lock: it
depends on the lock alone, whatever the file held before. -/
theorem writeTypes_text (env : Env) (p : Project)
    (hopen : env.fault Sys.openConfigDts = none) :
    writeTypes env p
      = (Exit.ret none, { p.enter "writeTypes" with
          disk := { p.disk with configDts := some (stubText p.lock) } }) := by
  have h2 : ∀ file : String, p.lock.foldl (fun file entry =>
      (file ++ ("  // @ts-expect-error" ++ "\n"))
        ++ ("  export import " ++ entry.Alias ++ " = _" ++ entry.Alias ++ "\n")) file
      = file ++ concatLines (p.lock.map stubExport) := by
    intro file
    rw [← foldl_append_lines stubExport]
    congr 1
    funext file entry
    rw [stubExport, String.append_assoc]
  have h1 : ∀ file : String, p.lock.foldl (fun file entry =>
      file ++ ("import * as _" ++ entry.Alias ++ " from \"" ++ entry.Package ++ "\";" ++ "\n"))
        file
      = file ++ concatLines (p.lock.map stubImport) :=
    fun file => foldl_append_lines stubImport p.lock file
  have h3 : ∀ file : String, p.lock.foldl (fun file entry =>
      file ++ ("      \"" ++ entry.Name ++ "\"?:  (_" ++ entry.Alias
        ++ ".ProviderArgs & \x7b version?: string \x7d) | boolean;" ++ "\n")) file
      = file ++ concatLines (p.lock.map stubKey) :=
    fun file => foldl_append_lines stubKey p.lock file
  unfold writeTypes
  simp only [hopen, Project.enter]
  rw [h1, h2, h3]
  simp only [stubText, stubHeader, stubFooter, String.append_assoc, String.empty_append]

/-- C10, on the lock of the scenario of the specification: the file holds the
line `import * as _aws from "@pulumi/aws";`. -/
theorem writeTypes_text_witness :
    writeTypes communityEnv
        { smallProject with lock := [⟨"aws", "@pulumi/aws", "latest", "aws"⟩] }
      = (Exit.ret none,
          { ({ smallProject with lock := [⟨"aws", "@pulumi/aws", "latest", "aws"⟩] } :
              Project).enter "writeTypes" with
            disk := { smallProject.disk with
              configDts := some (stubText [⟨"aws", "@pulumi/aws", "latest", "aws"⟩]) } }) ∧
    stubImport ⟨"aws", "@pulumi/aws", "latest", "aws"⟩
      = "import * as _aws from \"@pulumi/aws\";\n" :=
  ⟨writeTypes_text communityEnv
      { smallProject with lock := [⟨"aws", "@pulumi/aws", "latest", "aws"⟩] } rfl,
    by decide⟩

/-! ## `Install` -/

/-- The call `generateProviderLock` touches no file and enters no other method. -/
theorem generateProviderLock_effect (env : Env) (sched : Nat → Nat) (p : Project) :
    (generateProviderLock env sched p).2.disk = p.disk ∧
    (generateProviderLock env sched p).2.calls = p.calls ++ ["generateProviderLock"] := by
  unfold generateProviderLock
  simp only [Project.enter]
  split
  · exact ⟨rfl, rfl⟩
  · split
    · exact ⟨rfl, rfl⟩
    · split
      · split <;> exact ⟨rfl, rfl⟩
      · exact ⟨rfl, rfl⟩

/-- The call `writePackageJson` leaves the lock file alone and enters no other method. -/
theorem writePackageJson_effect (env : Env) (p : Project) :
    (writePackageJson env p).2.disk.providerLock = p.disk.providerLock ∧
    (writePackageJson env p).2.calls = p.calls ++ ["writePackageJson"] := by
  unfold writePackageJson
  simp only [Project.enter]
  repeat' split
  all_goals exact ⟨rfl, rfl⟩

/-- The call `fetchDeps` leaves the lock file alone and enters no other method. -/
theorem fetchDeps_effect (env : Env) (p : Project) :
    (fetchDeps env p).2.disk.providerLock = p.disk.providerLock ∧
    (fetchDeps env p).2.calls = p.calls ++ ["fetchDeps"] := by
  unfold fetchDeps
  simp only [Project.enter]
  split <;> exact ⟨rfl, rfl⟩

/-- The call `writeTypes` leaves the lock file alone and enters no other method. -/
theorem writeTypes_effect (env : Env) (p : Project) :
    (writeTypes env p).2.disk.providerLock = p.disk.providerLock ∧
    (writeTypes env p).2.calls = p.calls ++ ["writeTypes"] := by
  unfold writeTypes
  simp only [Project.enter]
  split <;> exact ⟨rfl, rfl⟩

/-- The method `Install` as the chain of its stages. -/
theorem Install_eq (env : Env) (sched : Nat → Nat) (p : Project) :
    Install env sched p =
      if (Install.afterLock env sched p).1 = Exit.ret none then
        if (Install.afterManifest env sched p).1 = Exit.ret none then
          if (Install.afterFetch env sched p).1 = Exit.ret none then
            if (Install.afterTypes env sched p).1 = Exit.ret none then
              writeProviderLock env (Install.afterTypes env sched p).2
            else Install.afterTypes env sched p
          else Install.afterFetch env sched p
        else Install.afterManifest env sched p
      else Install.afterLock env sched p := by
  unfold Install.afterTypes Install.afterFetch Install.afterManifest Install.afterLock Install
  simp only
  generalize generateProviderLock env sched (p.enter "Install") = r1
  obtain ⟨x1, q1⟩ := r1
  rcases x1 with (_ | e1) | _ | _ <;> try simp
  generalize writePackageJson env q1 = r2
  obtain ⟨x2, q2⟩ := r2
  rcases x2 with (_ | e2) | _ | _ <;> try simp
  generalize fetchDeps env q2 = r3
  obtain ⟨x3, q3⟩ := r3
  rcases x3 with (_ | e3) | _ | _ <;> try simp
  generalize writeTypes env q3 = r4
  obtain ⟨x4, q4⟩ := r4
  rcases x4 with (_ | e4) | _ | _ <;> simp

/-- C4: when one of `generateProviderLock`, `writePackageJson`, `fetchDeps`,
`writeTypes` returns an error, the steps before it having returned nil,
`Install` returns that error in the state that step leaves: the methods
entered are exactly the steps up to the failing one, `writeProviderLock` is
not among them, and the lock file is as before the call.  Whenever the lock
file differs after `Install`, all four steps have returned nil. -/
theorem Install_stops_at_first_error (env : Env) (sched : Nat → Nat) (p : Project)
    (e : String) :
    ((Install.afterLock env sched p).1 = Exit.ret (some e) →
      Install env sched p = (Exit.ret (some e), (Install.afterLock env sched p).2) ∧
      (Install env sched p).2.calls = p.calls ++ ["Install", "generateProviderLock"] ∧
      (Install env sched p).2.disk.providerLock = p.disk.providerLock) ∧
    ((Install.afterLock env sched p).1 = Exit.ret none →
      (Install.afterManifest env sched p).1 = Exit.ret (some e) →
      Install env sched p = (Exit.ret (some e), (Install.afterManifest env sched p).2) ∧
      (Install env sched p).2.calls
        = p.calls ++ ["Install", "generateProviderLock", "writePackageJson"] ∧
      (Install env sched p).2.disk.providerLock = p.disk.providerLock) ∧
    ((Install.afterLock env sched p).1 = Exit.ret none →
      (Install.afterManifest env sched p).1 = Exit.ret none →
      (Install.afterFetch env sched p).1 = Exit.ret (some e) →
      Install env sched p = (Exit.ret (some e), (Install.afterFetch env sched p).2) ∧
      (Install env sched p).2.calls
        = p.calls ++ ["Install", "generateProviderLock", "writePackageJson", "fetchDeps"] ∧
      (Install env sched p).2.disk.providerLock = p.disk.providerLock) ∧
    ((Install.afterLock env sched p).1 = Exit.ret none →
      (Install.afterManifest env sched p).1 = Exit.ret none →
      (Install.afterFetch env sched p).1 = Exit.ret none →
      (Install.afterTypes env sched p).1 = Exit.ret (some e) →
      Install env sched p = (Exit.ret (some e), (Install.afterTypes env sched p).2) ∧
      (Install env sched p).2.calls
        = p.calls ++ ["Install", "generateProviderLock", "writePackageJson", "fetchDeps",
            "writeTypes"] ∧
      (Install env sched p).2.disk.providerLock = p.disk.providerLock) ∧
    ((Install env sched p).2.disk.providerLock ≠ p.disk.providerLock →
      (Install.afterLock env sched p).1 = Exit.ret none ∧
      (Install.afterManifest env sched p).1 = Exit.ret none ∧
      (Install.afterFetch env sched p).1 = Exit.ret none ∧
      (Install.afterTypes env sched p).1 = Exit.ret none) := by
  have hg := generateProviderLock_effect env sched (p.enter "Install")
  have hw := writePackageJson_effect env (Install.afterLock env sched p).2
  have hf := fetchDeps_effect env (Install.afterManifest env sched p).2
  have ht := writeTypes_effect env (Install.afterFetch env sched p).2
  have cg : (Install.afterLock env sched p).2.calls
      = p.calls ++ ["Install", "generateProviderLock"] := by
    rw [Install.afterLock, hg.2]; simp [Project.enter]
  have dg : (Install.afterLock env sched p).2.disk.providerLock = p.disk.providerLock := by
    rw [Install.afterLock, hg.1]; rfl
  have cw : (Install.afterManifest env sched p).2.calls
      = p.calls ++ ["Install", "generateProviderLock", "writePackageJson"] := by
    rw [Install.afterManifest, hw.2, cg]; simp
  have dw : (Install.afterManifest env sched p).2.disk.providerLock = p.disk.providerLock := by
    rw [Install.afterManifest, hw.1, dg]
  have cf : (Install.afterFetch env sched p).2.calls
      = p.calls ++ ["Install", "generateProviderLock", "writePackageJson", "fetchDeps"] := by
    rw [Install.afterFetch, hf.2, cw]; simp
  have df : (Install.afterFetch env sched p).2.disk.providerLock = p.disk.providerLock := by
    rw [Install.afterFetch, hf.1, dw]
  have ct : (Install.afterTypes env sched p).2.calls
      = p.calls ++ ["Install", "generateProviderLock", "writePackageJson", "fetchDeps",
          "writeTypes"] := by
    rw [Install.afterTypes, ht.2, cf]; simp
  have dt : (Install.afterTypes env sched p).2.disk.providerLock = p.disk.providerLock := by
    rw [Install.afterTypes, ht.1, df]
  refine ⟨?_, ?_, ?_, ?_, ?_⟩
  · intro h1
    have hI : Install env sched p = Install.afterLock env sched p := by
      rw [Install_eq, if_neg (by rw [h1]; simp)]
    refine ⟨?_, by rw [hI, cg], by rw [hI, dg]⟩
    rw [hI, ← h1]
  · intro h1 h2
    have hI : Install env sched p = Install.afterManifest env sched p := by
      rw [Install_eq, if_pos h1, if_neg (by rw [h2]; simp)]
    refine ⟨?_, by rw [hI, cw], by rw [hI, dw]⟩
    rw [hI, ← h2]
  · intro h1 h2 h3
    have hI : Install env sched p = Install.afterFetch env sched p := by
      rw [Install_eq, if_pos h1, if_pos h2, if_neg (by rw [h3]; simp)]
    refine ⟨?_, by rw [hI, cf], by rw [hI, df]⟩
    rw [hI, ← h3]
  · intro h1 h2 h3 h4
    have hI : Install env sched p = Install.afterTypes env sched p := by
      rw [Install_eq, if_pos h1, if_pos h2, if_pos h3, if_neg (by rw [h4]; simp)]
    refine ⟨?_, by rw [hI, ct], by rw [hI, dt]⟩
    rw [hI, ← h4]
  · intro hne
    by_cases h1 : (Install.afterLock env sched p).1 = Exit.ret none
    · by_cases h2 : (Install.afterManifest env sched p).1 = Exit.ret none
      · by_cases h3 : (Install.afterFetch env sched p).1 = Exit.ret none
        · by_cases h4 : (Install.afterTypes env sched p).1 = Exit.ret none
          · exact ⟨h1, h2, h3, h4⟩
          · rw [Install_eq, if_pos h1, if_pos h2, if_pos h3, if_neg h4] at hne
            exact absurd dt hne
        · rw [Install_eq, if_pos h1, if_pos h2, if_neg h3] at hne
          exact absurd df hne
      · rw [Install_eq, if_pos h1, if_neg h2] at hne
        exact absurd dw hne
    · rw [Install_eq, if_neg h1] at hne
      exact absurd dg hne

/-- C4, on a project whose manifest does not decode: `generateProviderLock`
returns nil, `writePackageJson` returns the decoder's error, and `Install`
returns it with the lock file untouched. -/
theorem Install_stops_at_first_error_witness :
    (Install.afterLock manifestEnv (fun _ => 0) brokenManifest).1 = Exit.ret none ∧
    (Install.afterManifest manifestEnv (fun _ => 0) brokenManifest).1
      = Exit.ret (some "invalid character") ∧
    Install manifestEnv (fun _ => 0) brokenManifest
      = (Exit.ret (some "invalid character"),
          (Install.afterManifest manifestEnv (fun _ => 0) brokenManifest).2) ∧
    (Install manifestEnv (fun _ => 0) brokenManifest).2.calls
      = brokenManifest.calls ++ ["Install", "generateProviderLock", "writePackageJson"] ∧
    (Install manifestEnv (fun _ => 0) brokenManifest).2.disk.providerLock
      = brokenManifest.disk.providerLock :=
  ⟨by decide, by decide,
    (Install_stops_at_first_error manifestEnv (fun _ => 0) brokenManifest
      "invalid character").2.1 (by decide) (by decide)⟩

end Ion
